import Mathlib

set_option maxRecDepth 8000
set_option maxHeartbeats 1000000

attribute [local semireducible] Rat.add Rat.sub Rat.mul Rat.inv Rat.ofScientific

namespace CairoPath

/-- Python strings are modelled as lists of characters. -/
abbrev Str := List Char

/-- Decimal digit test, as Python's `str.isdigit` restricted to ASCII (the only
characters `int` accepts for the arc flags in this code path). -/
def isDig (c : Char) : Bool := '0' ≤ c && c ≤ '9'

/-- Numeric value of an ASCII digit character. -/
def digVal (c : Char) : ℕ := c.toNat - 48

/-- `int` applied to a single character: the digit value, or failure (Python
`ValueError`) on a non-digit. -/
def digit? (c : Char) : Option ℕ := if isDig c then some (digVal c) else none

/-- Accumulating decimal reader over a digit string. -/
def parseNatAux (a : ℕ) : Str → ℕ
  | [] => a
  | c :: t => parseNatAux (a * 10 + digVal c) t

/-- Modelled from the spec: the length/unit parser `size` (helpers module, not
under src/) applied to a plain decimal numeral, which is the only form produced
by the tokenizer for path data. Accepts `digits`, `digits.digits`, `.digits`,
`digits.`; unit suffixes, exponents and special floats are out of scope. -/
def parseUnsigned (t : Str) : Option ℚ :=
  let ip := t.takeWhile isDig
  let rest := t.dropWhile isDig
  match rest with
  | [] => if ip.isEmpty then none else some ((parseNatAux 0 ip : ℕ) : ℚ)
  | '.' :: fr =>
    if fr.all isDig && (!ip.isEmpty || !fr.isEmpty) then
      some (((parseNatAux 0 ip : ℕ) : ℚ) + ((parseNatAux 0 fr : ℕ) : ℚ) / 10 ^ fr.length)
    else none
  | _ => none

/-- Modelled from the spec: signed plain decimal numeral parsing (`float` via
`size`, helpers module, not under src/). -/
def parseNum (s : Str) : Option ℚ :=
  match s with
  | [] => parseUnsigned []
  | c :: t =>
    if c = '-' then (parseUnsigned t).map (fun q => -q)
    else if c = '+' then parseUnsigned t
    else parseUnsigned (c :: t)

/-- The decimal digit characters. -/
def digChar : ℕ → Char
  | 0 => '0'
  | 1 => '1'
  | 2 => '2'
  | 3 => '3'
  | 4 => '4'
  | 5 => '5'
  | 6 => '6'
  | 7 => '7'
  | 8 => '8'
  | _ => '9'

/-- Decimal digit string of a natural number, most significant digit first
(fuelled so that it evaluates by kernel reduction). -/
def natDigitsAux : ℕ → ℕ → Str
  | 0, _ => []
  | fuel + 1, n =>
    if n < 10 then [digChar n]
    else natDigitsAux fuel (n / 10) ++ [digChar (n % 10)]

/-- Decimal digit string of a natural number, most significant digit first. -/
def natDigits (n : ℕ) : Str := natDigitsAux (n + 1) n

/-- Smallest exponent `k ≤ den` such that `q * 10 ^ k` is an integer, when one
exists; a rational printed by Python's float formatting always has one. -/
def decExp (q : ℚ) : Option ℕ :=
  (List.range (q.den + 1)).find? (fun k => (q * 10 ^ k).den = 1)

/-- Left-pad a digit string with zeros to length `k`. -/
def padLeft (k : ℕ) (ds : Str) : Str := List.replicate (k - ds.length) '0' ++ ds

/-- Modelled from the spec: Python's float-to-string formatting used by the
degenerate-arc rewrite `f'l {x3} {y3} ...'`. Python's `repr` of a float
round-trips exactly; under the exact-rational abstraction this is an exact
decimal printer (coordinates reachable at the rewrite are decimal rationals).
Non-decimal rationals are unreachable there and get a dummy rendering. -/
def fmtQ (q : ℚ) : Str :=
  match decExp q with
  | none => ['0']
  | some k =>
    let m : ℤ := (q * 10 ^ k).num
    let sgn : Str := if m < 0 then ['-'] else []
    if k = 0 then sgn ++ natDigits m.natAbs
    else sgn ++ natDigits (m.natAbs / 10 ^ k) ++ '.' :: padLeft k (natDigits (m.natAbs % 10 ^ k))

/-- The path command letters (`PATH_LETTERS` from the helpers module). -/
def PATH_LETTERS : Str := "achlmqstvzACHLMQSTVZ".toList

/-- Python `str.strip` for the space-normalized strings of this interpreter. -/
def stripSp (s : Str) : Str :=
  ((s.dropWhile (fun c => c = ' ')).reverse.dropWhile (fun c => c = ' ')).reverse

/-- Python `string.split(' ', 1)`: the part before the first space, and the
remainder after it when a space exists. -/
def splitSp : Str → Str × Option Str
  | [] => ([], none)
  | c :: t =>
    if c = ' ' then ([], some t)
    else
      let p := splitSp t
      (c :: p.1, p.2)

/-- Python `(string + ' ').split(' ', 1)`, which always has a space to split. -/
def splitAdd (s : Str) : Str × Str :=
  match splitSp (s ++ [' ']) with
  | (a, some b) => (a, b)
  | (a, none) => (a, [])

/-- Boolean prefix test on character lists. -/
def prefB : Str → Str → Bool
  | [], _ => true
  | _ :: _, [] => false
  | a :: as, b :: bs => a = b && prefB as bs

/-- Python's `in` on strings: contiguous substring test. -/
def infixB (t : Str) : Str → Bool
  | [] => t.isEmpty
  | c :: s' => prefB t (c :: s') || infixB t s'

/-- Python exceptions that this code can raise. -/
inductive Err
  | valueError
  | typeError
  | attributeError
  | zeroDivisionError
  | indexError
deriving DecidableEq, Repr

/-- `point` from the helpers module (modelled from the spec: it is the supplied
two-number reader): `x, y, string = (string + ' ').split(' ', 2)` followed by
`size` on both parts; an unpacking shortfall or a bad numeral is a
`ValueError`. -/
def point (s : Str) : Except Err (ℚ × ℚ × Str) :=
  match splitSp (s ++ [' ']) with
  | (xt, some r) =>
    match splitSp r with
    | (yt, some r2) =>
      match parseNum xt, parseNum yt with
      | some vx, some vy => .ok (vx, vy, r2)
      | _, _ => .error .valueError
    | (_, none) => .error .valueError
  | (_, none) => .error .valueError

/-- Modelled from the spec: tokenizer normalization (`normalize` in the helpers
module, not under src/): a separator is inserted before each `-` that does not
follow an exponent letter, whitespace and commas collapse to single spaces, and
the ends are stripped. The run-together-decimal-dot rule is not needed by any
claim and is omitted. -/
def minusIns : Option Char → Str → Str
  | _, [] => []
  | prev, c :: t =>
    if c = '-' && !(prev = some 'e') && !(prev = some 'E') then
      ' ' :: '-' :: minusIns (some c) t
    else c :: minusIns (some c) t

/-- Map whitespace-like separator characters to a plain space. -/
def wsToSp (c : Char) : Char :=
  if c = ' ' || c = '\t' || c = '\n' || c = '\r' || c = ',' then ' ' else c

/-- Collapse runs of spaces to single spaces (recursion tracks whether the
previous character was a space). -/
def collapseAux : Bool → Str → Str
  | _, [] => []
  | prevSp, c :: t =>
    if c = ' ' then
      (if prevSp then collapseAux true t else ' ' :: collapseAux true t)
    else c :: collapseAux false t

/-- Collapse runs of spaces to single spaces. -/
def collapseSp (s : Str) : Str := collapseAux false s

/-- Modelled from the spec: the full normalization pass (helpers module). -/
def normalize (s : Str) : Str :=
  stripSp (collapseSp ((minusIns none s).map wsToSp))

/-- The pre-pass of `path`: surround every command letter with spaces. -/
def isolate (s : Str) : Str :=
  s.flatMap (fun c => if c ∈ PATH_LETTERS then [' ', c, ' '] else [c])

/-- `atan2` as used by `point_angle` (math.atan2 convention). -/
noncomputable def atan2R (y x : ℝ) : ℝ :=
  if 0 < x then Real.arctan (y / x)
  else if x < 0 then
    (if 0 ≤ y then Real.arctan (y / x) + Real.pi else Real.arctan (y / x) - Real.pi)
  else if 0 < y then Real.pi / 2
  else if y < 0 then -(Real.pi / 2)
  else 0

/-- Modelled from the spec: `point_angle` from the helpers module ("compute the
angle of a vector"): the planar angle of the vector from `(cx, cy)` to
`(px, py)`. -/
noncomputable def point_angle (cx cy px py : ℝ) : ℝ := atan2R (py - cy) (px - cx)

/-- Modelled from the spec: `rotate` from the helpers module ("rotate a point
by an angle"). -/
noncomputable def rotateP (x y a : ℝ) : ℝ × ℝ :=
  (x * Real.cos a - y * Real.sin a, y * Real.cos a + x * Real.sin a)

/-- `math.radians` applied to a parsed rational. -/
noncomputable def radiansR (q : ℚ) : ℝ := (q : ℝ) * Real.pi / 180

/-- `math.hypot`. -/
noncomputable def hypotR (x y : ℝ) : ℝ := Real.sqrt (x ^ 2 + y ^ 2)

/-- `math.copysign(pi / 2, q)` for an exact rational sign argument. -/
noncomputable def copysignPiHalf (q : ℚ) : ℝ :=
  if q < 0 then -(Real.pi / 2) else Real.pi / 2

/-- Modelled from the spec: `quadratic_points` from the helpers module
(elevate a quadratic Bezier to cubic control points by the standard 2/3
control-point rule). -/
def quadratic_points (x1 y1 x2 y2 x3 y3 : ℚ) : ℚ × ℚ × ℚ × ℚ × ℚ × ℚ :=
  (x2 * 2 / 3 + x1 / 3, y2 * 2 / 3 + y1 / 3,
   x2 * 2 / 3 + x3 / 3, y2 * 2 / 3 + y3 / 3, x3, y3)

/-- One entry of the vertex stream `node.vertices`: a committed point, a
tangent-angle pair, or the `None` subpath break. -/
inductive Vtx
  | pt (p : ℚ × ℚ)
  | ang (a : ℝ × ℝ)
  | brk

/-- One call into the drawing surface (`surface.context` / `surface.draw`). -/
inductive Ev
  | moveTo (p : ℚ × ℚ)
  | relMoveTo (p : ℚ × ℚ)
  | lineTo (p : ℚ × ℚ)
  | relLineTo (p : ℚ × ℚ)
  | curveTo (a b c : ℚ × ℚ)
  | relCurveTo (a b c : ℚ × ℚ)
  | closePath
  | arcEv (c : ℝ × ℝ) (r : ℝ) (a1 a2 : ℝ) (negative : Bool)
  | save
  | restore
  | translate (p : ℝ × ℝ)
  | rotateEv (a : ℝ)
  | scaleEv (x y : ℝ)
  | setTolerance (t : ℚ)
  | copyPath
  | newPath
  | appendPath
  | rectangle (b : ℚ × ℚ × ℚ × ℚ)
  | clipEv
  | drawChild (n : ℕ)

/-- The interpreter state of `path`: the dispatch letter and previous letter,
the tracked current point and subpath start, the persistent Python locals
`x1..y3` carried across commands for smooth-curve reflection, the vertex
stream being built, and the trace of surface calls. -/
structure St where
  letter : Option Str
  last_letter : Option Str
  current_point : ℚ × ℚ
  first_path_point : Option (ℚ × ℚ)
  x1 : ℚ
  y1 : ℚ
  x2 : ℚ
  y2 : ℚ
  x3 : ℚ
  y3 : ℚ
  vertices : List Vtx
  trace : List Ev

/-- Initial interpreter state. -/
def initSt : St := ⟨none, none, (0, 0), none, 0, 0, 0, 0, 0, 0, [], []⟩

/-- Result of one dispatch: the new state and remaining string, with
`skipPost = true` for the two `continue` sites of the arc branch, or an
exception. -/
inductive DRes
  | next (σ : St) (s : Str) (skipPost : Bool)
  | exn (e : Err)

/-- `last_letter and last_letter not in 'zZ'` (the moveto subpath-break
guard): a `None` or empty previous letter is falsy, otherwise a substring
test against `'zZ'`. -/
def lastTruthyNotZ : Option Str → Bool
  | none => false
  | some t => !t.isEmpty && !(infixB t ['z', 'Z'])

/-- `last_letter in (None, 'z', 'Z')`. -/
def lastIn3 : Option Str → Bool
  | none => true
  | some t => t = ['z'] || t = ['Z']

/-- `last_letter in (None, 'm', 'M', 'z', 'Z')`. -/
def lastIn5 : Option Str → Bool
  | none => true
  | some t => t = ['m'] || t = ['M'] || t = ['z'] || t = ['Z']

/-- `letter not in (None, 'm', 'M', 'z', 'Z')`. -/
def letterNotIn5 : Option Str → Bool
  | none => false
  | some t => !(t = ['m'] || t = ['M'] || t = ['z'] || t = ['Z'])

/-- The `elif letter == 'c'` branch: relative cubic curve. -/
noncomputable def cB (σ : St) (s : Str) : DRes :=
  let x := σ.current_point.1
  let y := σ.current_point.2
  match point s with
  | .error e => .exn e
  | .ok (x1', y1', s1) =>
    match point s1 with
    | .error e => .exn e
    | .ok (x2', y2', s2) =>
      match point s2 with
      | .error e => .exn e
      | .ok (x3', y3', s3) =>
        .next { σ with
          vertices := σ.vertices ++
            [.ang (point_angle x2' y2' x1' y1', point_angle x2' y2' x3' y3')],
          trace := σ.trace ++ [.relCurveTo (x1', y1') (x2', y2') (x3', y3')],
          current_point := (σ.current_point.1 + x3', σ.current_point.2 + y3'),
          x1 := x1' + x, y1 := y1' + y, x2 := x2' + x, y2 := y2' + y,
          x3 := x3' + x, y3 := y3' + y } s3 false

/-- The `elif letter == 'C'` branch: absolute cubic curve. -/
noncomputable def CB (σ : St) (s : Str) : DRes :=
  match point s with
  | .error e => .exn e
  | .ok (x1', y1', s1) =>
    match point s1 with
    | .error e => .exn e
    | .ok (x2', y2', s2) =>
      match point s2 with
      | .error e => .exn e
      | .ok (x3', y3', s3) =>
        .next { σ with
          vertices := σ.vertices ++
            [.ang (point_angle x2' y2' x1' y1', point_angle x2' y2' x3' y3')],
          trace := σ.trace ++ [.curveTo (x1', y1') (x2', y2') (x3', y3')],
          current_point := (x3', y3'),
          x1 := x1', y1 := y1', x2 := x2', y2 := y2', x3 := x3', y3 := y3' } s3 false

/-- The `elif letter == 'h'` branch: relative horizontal line. -/
noncomputable def hB (σ : St) (s : Str) : DRes :=
  let p := splitAdd s
  match parseNum p.1 with
  | none => .exn .valueError
  | some q =>
    let angle : ℝ := if 0 < q then 0 else Real.pi
    .next { σ with
      vertices := σ.vertices ++ [.ang (Real.pi - angle, angle)],
      trace := σ.trace ++ [.relLineTo (q, 0)],
      current_point := (σ.current_point.1 + q, σ.current_point.2) } p.2 false

/-- The `elif letter == 'H'` branch: absolute horizontal line. -/
noncomputable def HB (σ : St) (s : Str) : DRes :=
  let p := splitAdd s
  let old_x := σ.current_point.1
  let old_y := σ.current_point.2
  match parseNum p.1 with
  | none => .exn .valueError
  | some q =>
    let angle : ℝ := if old_x < q then 0 else Real.pi
    .next { σ with
      vertices := σ.vertices ++ [.ang (Real.pi - angle, angle)],
      trace := σ.trace ++ [.lineTo (q, old_y)],
      current_point := (q, σ.current_point.2) } p.2 false

/-- The `elif letter == 'l'` branch: relative straight line. -/
noncomputable def lB (σ : St) (s : Str) : DRes :=
  match point s with
  | .error e => .exn e
  | .ok (x, y, s') =>
    let angle := point_angle 0 0 x y
    .next { σ with
      vertices := σ.vertices ++ [.ang (Real.pi - angle, angle)],
      trace := σ.trace ++ [.relLineTo (x, y)],
      current_point := (σ.current_point.1 + x, σ.current_point.2 + y) } s' false

/-- The `elif letter == 'L'` branch: absolute straight line. -/
noncomputable def LB (σ : St) (s : Str) : DRes :=
  match point s with
  | .error e => .exn e
  | .ok (x, y, s') =>
    let old_x := σ.current_point.1
    let old_y := σ.current_point.2
    let angle := point_angle old_x old_y x y
    .next { σ with
      vertices := σ.vertices ++ [.ang (Real.pi - angle, angle)],
      trace := σ.trace ++ [.lineTo (x, y)],
      current_point := (x, y) } s' false

/-- The `elif letter == 'm'` branch: relative move. -/
noncomputable def mB (σ : St) (s : Str) : DRes :=
  match point s with
  | .error e => .exn e
  | .ok (x, y, s') =>
    let vs := if lastTruthyNotZ σ.last_letter then σ.vertices ++ [.brk] else σ.vertices
    .next { σ with
      vertices := vs,
      trace := σ.trace ++ [.relMoveTo (x, y)],
      current_point := (σ.current_point.1 + x, σ.current_point.2 + y) } s' false

/-- The `elif letter == 'M'` branch: absolute move. -/
noncomputable def MB (σ : St) (s : Str) : DRes :=
  match point s with
  | .error e => .exn e
  | .ok (x, y, s') =>
    let vs := if lastTruthyNotZ σ.last_letter then σ.vertices ++ [.brk] else σ.vertices
    .next { σ with
      vertices := vs,
      trace := σ.trace ++ [.moveTo (x, y)],
      current_point := (x, y) } s' false

/-- The `elif letter == 'q'` branch: relative quadratic curve. -/
noncomputable def qB (σ : St) (s : Str) : DRes :=
  match point s with
  | .error e => .exn e
  | .ok (x2', y2', s1) =>
    match point s1 with
    | .error e => .exn e
    | .ok (x3', y3', s2) =>
      let qp := quadratic_points 0 0 x2' y2' x3' y3'
      .next { σ with
        vertices := σ.vertices ++ [.ang (0, 0)],
        trace := σ.trace ++
          [.relCurveTo (qp.1, qp.2.1) (qp.2.2.1, qp.2.2.2.1) (qp.2.2.2.2.1, qp.2.2.2.2.2)],
        current_point := (σ.current_point.1 + x3', σ.current_point.2 + y3'),
        x1 := 0, y1 := 0, x2 := x2', y2 := y2', x3 := x3', y3 := y3' } s2 false

/-- The `elif letter == 'Q'` branch: absolute quadratic curve. -/
noncomputable def QB (σ : St) (s : Str) : DRes :=
  let ax := σ.current_point.1
  let ay := σ.current_point.2
  match point s with
  | .error e => .exn e
  | .ok (x2', y2', s1) =>
    match point s1 with
    | .error e => .exn e
    | .ok (x3', y3', s2) =>
      let qp := quadratic_points ax ay x2' y2' x3' y3'
      .next { σ with
        vertices := σ.vertices ++ [.ang (0, 0)],
        trace := σ.trace ++
          [.curveTo (qp.1, qp.2.1) (qp.2.2.1, qp.2.2.2.1) (qp.2.2.2.2.1, qp.2.2.2.2.2)],
        current_point := (x3', y3'),
        x1 := ax, y1 := ay, x2 := x2', y2 := y2', x3 := x3', y3 := y3' } s2 false

/-- The `elif letter == 's'` branch: relative smooth cubic curve. -/
noncomputable def sB (σ : St) (s : Str) : DRes :=
  let x := σ.current_point.1
  let y := σ.current_point.2
  match σ.last_letter with
  | none => .exn .typeError
  | some ll =>
    let x1' := if infixB ll "csCS".toList then σ.x3 - σ.x2 else 0
    let y1' := if infixB ll "csCS".toList then σ.y3 - σ.y2 else 0
    match point s with
    | .error e => .exn e
    | .ok (x2', y2', s1) =>
      match point s1 with
      | .error e => .exn e
      | .ok (x3', y3', s2) =>
        .next { σ with
          vertices := σ.vertices ++
            [.ang (point_angle x2' y2' x1' y1', point_angle x2' y2' x3' y3')],
          trace := σ.trace ++ [.relCurveTo (x1', y1') (x2', y2') (x3', y3')],
          current_point := (σ.current_point.1 + x3', σ.current_point.2 + y3'),
          x1 := x1' + x, y1 := y1' + y, x2 := x2' + x, y2 := y2' + y,
          x3 := x3' + x, y3 := y3' + y } s2 false

/-- The `elif letter == 'S'` branch: absolute smooth cubic curve. -/
noncomputable def SB (σ : St) (s : Str) : DRes :=
  let x := σ.current_point.1
  let y := σ.current_point.2
  match σ.last_letter with
  | none => .exn .typeError
  | some ll =>
    let x1' := if infixB ll "csCS".toList then σ.x3 + (σ.x3 - σ.x2) else x
    let y1' := if infixB ll "csCS".toList then σ.y3 + (σ.y3 - σ.y2) else y
    match point s with
    | .error e => .exn e
    | .ok (x2', y2', s1) =>
      match point s1 with
      | .error e => .exn e
      | .ok (x3', y3', s2) =>
        .next { σ with
          vertices := σ.vertices ++
            [.ang (point_angle x2' y2' x1' y1', point_angle x2' y2' x3' y3')],
          trace := σ.trace ++ [.curveTo (x1', y1') (x2', y2') (x3', y3')],
          current_point := (x3', y3'),
          x1 := x1', y1 := y1', x2 := x2', y2 := y2', x3 := x3', y3 := y3' } s2 false

/-- The `elif letter == 't'` branch: relative smooth quadratic curve. -/
noncomputable def tB (σ : St) (s : Str) : DRes :=
  match σ.last_letter with
  | none => .exn .typeError
  | some ll =>
    let a :=
      if !(infixB ll "QqTt".toList) then ((0 : ℚ), (0 : ℚ), (0 : ℚ), (0 : ℚ))
      else if infixB ll "QT".toList then
        (σ.x2 - σ.x1, σ.y2 - σ.y1, σ.x3 - σ.x1, σ.y3 - σ.y1)
      else (σ.x2, σ.y2, σ.x3, σ.y3)
    let rx2 := a.2.2.1 - a.1
    let ry2 := a.2.2.2 - a.2.1
    match point s with
    | .error e => .exn e
    | .ok (x3', y3', s1) =>
      let qp := quadratic_points 0 0 rx2 ry2 x3' y3'
      .next { σ with
        vertices := σ.vertices ++ [.ang (0, 0)],
        trace := σ.trace ++
          [.relCurveTo (qp.1, qp.2.1) (qp.2.2.1, qp.2.2.2.1) (qp.2.2.2.2.1, qp.2.2.2.2.2)],
        current_point := (σ.current_point.1 + x3', σ.current_point.2 + y3'),
        x1 := 0, y1 := 0, x2 := rx2, y2 := ry2, x3 := x3', y3 := y3' } s1 false

/-- The `elif letter == 'T'` branch: absolute smooth quadratic curve. -/
noncomputable def TB (σ : St) (s : Str) : DRes :=
  let ax := σ.current_point.1
  let ay := σ.current_point.2
  match σ.last_letter with
  | none => .exn .typeError
  | some ll =>
    let a :=
      if !(infixB ll "QqTt".toList) then (ax, ay, ax, ay)
      else if infixB ll "qt".toList then
        (σ.x2 + ax, σ.y2 + ay, σ.x3 + ax, σ.y3 + ay)
      else (σ.x2, σ.y2, σ.x3, σ.y3)
    let rx2 := ax + (a.2.2.1 - a.1)
    let ry2 := ay + (a.2.2.2 - a.2.1)
    match point s with
    | .error e => .exn e
    | .ok (x3', y3', s1) =>
      let qp := quadratic_points ax ay rx2 ry2 x3' y3'
      .next { σ with
        vertices := σ.vertices ++ [.ang (0, 0)],
        trace := σ.trace ++
          [.curveTo (qp.1, qp.2.1) (qp.2.2.1, qp.2.2.2.1) (qp.2.2.2.2.1, qp.2.2.2.2.2)],
        current_point := (x3', y3'),
        x1 := ax, y1 := ay, x2 := rx2, y2 := ry2, x3 := x3', y3 := y3' } s1 false

/-- The `elif letter == 'v'` branch: relative vertical line. -/
noncomputable def vB (σ : St) (s : Str) : DRes :=
  let p := splitAdd s
  match parseNum p.1 with
  | none => .exn .valueError
  | some q =>
    let angle := copysignPiHalf q
    .next { σ with
      vertices := σ.vertices ++ [.ang (-angle, angle)],
      trace := σ.trace ++ [.relLineTo (0, q)],
      current_point := (σ.current_point.1, σ.current_point.2 + q) } p.2 false

/-- The `elif letter == 'V'` branch: absolute vertical line. -/
noncomputable def VB (σ : St) (s : Str) : DRes :=
  let p := splitAdd s
  let old_x := σ.current_point.1
  let old_y := σ.current_point.2
  match parseNum p.1 with
  | none => .exn .valueError
  | some q =>
    let angle := copysignPiHalf (q - old_y)
    .next { σ with
      vertices := σ.vertices ++ [.ang (-angle, angle)],
      trace := σ.trace ++ [.lineTo (old_x, q)],
      current_point := (σ.current_point.1, q) } p.2 false

/-- The `elif letter in 'zZ' and first_path_point` branch: close path if a
subpath start point is recorded, otherwise fall through unchanged. -/
noncomputable def zB (σ : St) (s : Str) : DRes :=
  match σ.first_path_point with
  | some p =>
    .next { σ with
      vertices := σ.vertices ++ [.brk],
      trace := σ.trace ++ [.closePath],
      current_point := p } s false
  | none => .next σ s false

/-- The intermediate values of the elliptical-arc-to-center conversion
(lines 202-236 of `path`), in source order: the radii ratio, the local-frame
angle, the endpoint distance `d` (the reused `xe`), the corrected x radius,
the centre before rotating back (`xcPre`, `ycPre` with the flag-chosen sign),
the centre after rotating back, and the two drawing angles. -/
structure ArcOut where
  radii_ratio : ℚ
  angle0 : ℝ
  d : ℝ
  rxAdj : ℝ
  xcPre : ℝ
  ycPre : ℝ
  xc : ℝ
  yc : ℝ
  angle1 : ℝ
  angle2 : ℝ

/-- The arc-to-center conversion of the non-degenerate arc branch. -/
noncomputable def arcCompute (rx ry rotq : ℚ) (large sweep : Bool) (x3 y3 : ℚ) : ArcOut :=
  let radii_ratio : ℚ := ry / rx
  let rotation := radiansR rotq
  let p := rotateP x3 y3 (-rotation)
  let xe0 := p.1
  let ye0 := p.2 / (radii_ratio : ℝ)
  let angle := point_angle 0 0 xe0 ye0
  let xe := hypotR xe0 ye0
  let rxA : ℝ := max (rx : ℝ) (xe / 2)
  let xc := xe / 2
  let yc0 := Real.sqrt (rxA ^ 2 - xc ^ 2)
  let yc := if !(xor large sweep) then -yc0 else yc0
  let pe := rotateP xe 0 angle
  let pc := rotateP xc yc angle
  let angle1 := point_angle pc.1 pc.2 0 0
  let angle2 := point_angle pc.1 pc.2 pe.1 pe.2
  ⟨radii_ratio, angle, xe, rxA, xc, yc, pc.1, pc.2, angle1, angle2⟩

/-- The `if letter in 'aA'` branch: elliptical arc, including its tolerance
call, flag reading, the lenient flag skip, the degenerate-radius rewrite to a
relative lineto, and the full conversion; `l` is the dispatch letter. -/
noncomputable def arcB (l : Str) (σ0 : St) (s0 : Str) : DRes :=
  let σ := { σ0 with trace := σ0.trace ++ [Ev.setTolerance (1 / 100000)] }
  let cx := σ.current_point.1
  let cy := σ.current_point.2
  match point s0 with
  | .error e => .exn e
  | .ok (rx, ry, s1) =>
    match splitSp s1 with
    | (_, none) => .exn .valueError
    | (rotTok, some s2) =>
      match parseNum rotTok with
      | none => .exn .valueError
      | some rotq =>
        match s2 with
        | [] => .exn .indexError
        | lc :: s3 =>
          match stripSp s3 with
          | [] => .exn .indexError
          | sc :: s4 =>
            match point (stripSp s4) with
            | .error e => .exn e
            | .ok (px, py, s5) =>
              match digit? lc, digit? sc with
              | some lv, some sv =>
                if ¬(lv = 0 ∨ lv = 1) ∨ ¬(sv = 0 ∨ sv = 1) then
                  .next { σ with x1 := cx, y1 := cy, x3 := px, y3 := py } s5 true
                else
                  let large := lv = 1
                  let sweep := sv = 1
                  let rel := if l = ['A'] then (px - cx, py - cy) else (px, py)
                  if rx = 0 ∨ ry = 0 then
                    let next_letter : Str :=
                      match s5 with
                      | c :: _ => if ¬(c ∈ PATH_LETTERS) then l ++ [' '] else []
                      | [] => []
                    .next { σ with x1 := cx, y1 := cy, x3 := rel.1, y3 := rel.2 }
                      ('l' :: ' ' :: fmtQ rel.1 ++ ' ' :: fmtQ rel.2 ++ ' ' :: (next_letter ++ s5))
                      true
                  else
                    let a := arcCompute rx ry rotq large sweep rel.1 rel.2
                    .next { σ with
                      x1 := cx, y1 := cy, x3 := rel.1, y3 := rel.2,
                      vertices := σ.vertices ++ [Vtx.ang (-a.angle1, -a.angle2)],
                      trace := σ.trace ++
                        [Ev.save, Ev.translate ((cx : ℝ), (cy : ℝ)), Ev.rotateEv (radiansR rotq),
                         Ev.scaleEv 1 ((ry / rx : ℚ) : ℝ),
                         Ev.arcEv (a.xc, a.yc) a.rxAdj a.angle1 a.angle2 (!sweep), Ev.restore],
                      current_point := (cx + rel.1, cy + rel.2) } s5 false
              | _, _ => .exn .valueError

/-- The dispatch over the current letter (lines 162-449); a `None` letter hits
Python's `in` on a string and raises `TypeError`. -/
noncomputable def dispatch (σ : St) (s : Str) : DRes :=
  match σ.letter with
  | none => .exn .typeError
  | some l =>
    if infixB l ['a', 'A'] then arcB l σ s
    else if l = ['c'] then cB σ s
    else if l = ['C'] then CB σ s
    else if l = ['h'] then hB σ s
    else if l = ['H'] then HB σ s
    else if l = ['l'] then lB σ s
    else if l = ['L'] then LB σ s
    else if l = ['m'] then mB σ s
    else if l = ['M'] then MB σ s
    else if l = ['q'] then qB σ s
    else if l = ['Q'] then QB σ s
    else if l = ['s'] then sB σ s
    else if l = ['S'] then SB σ s
    else if l = ['t'] then tB σ s
    else if l = ['T'] then TB σ s
    else if l = ['v'] then vB σ s
    else if l = ['V'] then VB σ s
    else if infixB l ['z', 'Z'] then zB σ s
    else .next σ s false

/-- The loop prologue (lines 145-160): letter extraction with the seed-point
append, reinterpretation of a repeated moveto as a lineto, and the two
`first_path_point` updates. -/
def prologue (σ1 : St) (s1 : Str) : St × Str :=
  let tok := (splitSp s1).1
  let pr :=
    if infixB tok PATH_LETTERS then
      let p := splitAdd s1
      let σ := { σ1 with letter := some p.1 }
      if lastIn3 σ.last_letter && !(infixB p.1 ['m', 'M']) then
        ({ σ with vertices := σ.vertices ++ [.pt σ.current_point],
                  first_path_point := some σ.current_point }, p.2)
      else (σ, p.2)
    else if σ1.letter = some ['M'] then ({ σ1 with letter := some ['L'] }, s1)
    else if σ1.letter = some ['m'] then ({ σ1 with letter := some ['l'] }, s1)
    else (σ1, s1)
  let σ3 := if lastIn5 pr.1.last_letter then { pr.1 with first_path_point := none } else pr.1
  let σ4 :=
    if letterNotIn5 σ3.letter && σ3.first_path_point.isNone then
      { σ3 with first_path_point := some σ3.current_point }
    else σ3
  (σ4, pr.2)

/-- The loop epilogue (lines 451-455): append the current point unless the
letter is a closepath, strip, and record `last_letter`. -/
def postStep (σ : St) (s : Str) : Except Err (St × Str) :=
  match σ.letter with
  | none => .error .typeError
  | some l =>
    let σ' :=
      if infixB l ['z', 'Z'] then σ
      else { σ with vertices := σ.vertices ++ [.pt σ.current_point] }
    .ok ({ σ' with last_letter := some l }, stripSp s)

/-- Result of a single loop iteration. -/
inductive SRes
  | next (σ : St) (s : Str)
  | exn (e : Err)

/-- One iteration of the `while string` loop of `path`. -/
noncomputable def step (σ0 : St) (s0 : Str) : SRes :=
  let s1 := stripSp s0
  let pr := prologue σ0 s1
  match dispatch pr.1 pr.2 with
  | .exn e => .exn e
  | .next σ2 s3 true => .next σ2 s3
  | .next σ2 s3 false =>
    match postStep σ2 s3 with
    | .error e => .exn e
    | .ok p => .next p.1 p.2

/-- Result of running the interpreter loop: a final state, a raised
exception, or fuel exhaustion (the loop still running). -/
inductive Res
  | ok (σ : St)
  | exn (e : Err)
  | out

/-- The `while string` loop of `path`, fuelled. -/
noncomputable def run : ℕ → St → Str → Res
  | _, σ, [] => .ok σ
  | 0, _, _ => .out
  | f + 1, σ, s =>
    match step σ s with
    | .exn e => .exn e
    | .next σ' s' => run f σ' s'

/-- The `path` entry point on a raw `d` string: isolate letters, normalize,
seed the current point (an implicit `move_to (0,0)` when the surface has no
current point), and run the command loop. -/
noncomputable def path (d : Str) (init : Option (ℚ × ℚ)) (fuel : ℕ) : Res :=
  let s := normalize (isolate d)
  let σ0 : St :=
    match init with
    | some p => { initSt with current_point := p }
    | none => { initSt with trace := [.moveTo (0, 0)], current_point := (0, 0) }
  run fuel σ0 s

/-- Whether a result is a raised exception. -/
def Res.isExn : Res → Bool
  | .exn _ => true
  | _ => false

/-- Shape tag of a vertex-stream entry: point (with its coordinates), angle
pair, or break. -/
inductive VTag
  | p (q : ℚ × ℚ)
  | a
  | b
deriving DecidableEq, Repr

/-- Tag projection of a vertex. -/
def Vtx.tag : Vtx → VTag
  | .pt q => .p q
  | .ang _ => .a
  | .brk => .b

/-- Tag list of a successful run's vertex stream. -/
def Res.tags : Res → Option (List VTag)
  | .ok σ => some (σ.vertices.map Vtx.tag)
  | _ => none

/-- Current point of a successful run. -/
def Res.cur : Res → Option (ℚ × ℚ)
  | .ok σ => some σ.current_point
  | _ => none

/-- Whether a surface call is a drawing primitive (as opposed to a transform,
tolerance, path-buffer or clipping call). -/
def Ev.isDraw : Ev → Bool
  | .moveTo _ => true
  | .relMoveTo _ => true
  | .lineTo _ => true
  | .relLineTo _ => true
  | .curveTo _ _ _ => true
  | .relCurveTo _ _ _ => true
  | .closePath => true
  | .arcEv _ _ _ _ _ => true
  | _ => false

/-- The drawing primitives of a trace. -/
def drawCallsOf (t : List Ev) : List Ev := t.filter Ev.isDraw

/-- The `curve_to` calls of a trace, with their six coordinates. -/
def Ev.curve6? : Ev → Option ((ℚ × ℚ) × (ℚ × ℚ) × (ℚ × ℚ))
  | .curveTo a b c => some (a, b, c)
  | _ => none

/-- All absolute `curve_to` calls of a successful run. -/
def Res.curveTos : Res → Option (List ((ℚ × ℚ) × (ℚ × ℚ) × (ℚ × ℚ)))
  | .ok σ => some (σ.trace.filterMap Ev.curve6?)
  | _ => none

/-- Number of subpath breaks in a vertex stream. -/
def brkCount (v : List Vtx) : ℕ :=
  (v.filter fun x => match x with | .brk => true | _ => false).length

/-- Association-list lookup, modelling Python `dict.get` / attribute lookup. -/
def alist {α : Type} (k : Str) : List (Str × α) → Option α
  | [] => none
  | p :: t => if p.1 = k then some p.2 else alist k t

/-- A marker definition node, as read by `draw_markers`: its raw attribute
strings, plus the results of the external collaborators (modelled from the
spec, which places them out of scope): `node_format`'s viewBox,
`preserve_ratio`'s fit data, `clip_marker_box`'s box, and
`calculate_bounding_box`'s box. -/
structure MarkerDef where
  markerUnits : Option Str
  markerWidth : Option Str
  markerHeight : Option Str
  refX : Option Str
  refY : Option Str
  orient : Option Str
  overflow : Option Str
  viewbox : Option (ℚ × ℚ × ℚ × ℚ)
  preserveRatio : ℚ × ℚ × ℚ × ℚ
  clipBox : ℚ × ℚ × ℚ × ℚ
  bbox : ℚ × ℚ × ℚ × ℚ
  children : List ℕ

/-- The surface data `draw_markers` reads: the marker-definition dictionary
`surface.markers` and the parent node's `stroke-width` attribute. -/
structure MSurface where
  markers : List (Str × MarkerDef)
  strokeWidth : Option Str

/-- A path node as seen by `draw_markers`: its vertex stream (absent when the
attribute was never set) and its marker-reference attributes. -/
structure MNode where
  vertices : Option (List Vtx)
  attrs : List (Str × Str)

/-- Modelled from the spec: `parse_url(...).fragment` (url module, not under
src/): strip a `url(...)` wrapper, then take what follows `#`, or the empty
string when there is no fragment. -/
def parse_url_fragment (s : Str) : Str :=
  let inner :=
    if prefB "url(".toList s && s.getLast? = some ')' then (s.drop 4).dropLast else s
  match inner.dropWhile (fun c => c ≠ '#') with
  | [] => []
  | _ :: t => t

/-- Marker-reference resolution of `draw_markers` (lines 20-27): each of
start/mid/end uses its `marker-<position>` attribute when present, else the
shorthand `marker` attribute. -/
def resolveMarkers (node : MNode) : Str × Str × Str :=
  let common := parse_url_fragment ((alist "marker".toList node.attrs).getD [])
  let get1 := fun (pos : Str) =>
    match alist ("marker-".toList ++ pos) node.attrs with
    | some v => parse_url_fragment v
    | none => common
  (get1 "start".toList, get1 "mid".toList, get1 "end".toList)

/-- Python truthiness of a vertex-stream entry: the `None` break is falsy,
point and angle tuples are truthy. -/
def Vtx.truthy : Vtx → Bool
  | .brk => false
  | _ => true

/-- First component of a stream entry used as `angles[0]` (a point tuple used
in the angle slot contributes its x coordinate, exactly as in Python). -/
def Vtx.fstR : Vtx → ℝ
  | .pt p => (p.1 : ℝ)
  | .ang a => a.1
  | .brk => 0

/-- Second component of a stream entry used as `angles[1]`. -/
def Vtx.sndR : Vtx → ℝ
  | .pt p => (p.2 : ℝ)
  | .ang a => a.2
  | .brk => 0

/-- Unpacking a popped stream entry as a coordinate pair for
`translate(*point)`; unpacking the `None` break raises `TypeError`. -/
def Vtx.pairR : Vtx → Except Err (ℝ × ℝ)
  | .pt p => .ok ((p.1 : ℝ), (p.2 : ℝ))
  | .ang a => .ok a
  | .brk => .error .typeError

/-- `size` on an attribute string (modelled from the spec, see `parseNum`),
raising `ValueError` on a non-numeral. -/
def parseNumE (s : Str) : Except Err ℚ :=
  match parseNum s with
  | some q => .ok q
  | none => .error .valueError

/-- The marker-drawing block of `draw_markers` (lines 47-119) for one vertex:
resolve the marker name (empty is falsy and skipped), look it up in
`surface.markers` (`dict.get` returning `None` makes the following attribute
access raise `AttributeError`), compute scale, sizing, clip box, the orient
override and the fixed π offset, then emit the surface calls for each child.
Returns the emitted surface calls. -/
noncomputable def drawMarkerBlock (surface : MSurface) (marker : Str) (position : Str)
    (pv : Vtx) (angle0 : Option ℝ) : Except Err (List Ev) :=
  if marker.isEmpty then .ok []
  else
    match alist marker surface.markers with
    | none => .error .attributeError
    | some mn =>
      match
        (if mn.markerUnits = some "userSpaceOnUse".toList then .ok 1
         else parseNumE (surface.strokeWidth.getD "1".toList) : Except Err ℚ) with
      | .error e => .error e
      | .ok scaleV =>
        match
          (match mn.viewbox with
           | some _ =>
             .ok (mn.preserveRatio.1, mn.preserveRatio.2.1, mn.preserveRatio.2.2.1,
                  mn.preserveRatio.2.2.2, some mn.clipBox)
           | none =>
             match parseNumE (mn.markerWidth.getD "3".toList),
                 parseNumE (mn.markerHeight.getD "3".toList),
                 parseNumE (mn.refX.getD "0".toList),
                 parseNumE (mn.refY.getD "0".toList) with
             | .ok mw, .ok mh, .ok rx, .ok ry =>
               if mn.bbox.2.2.1 = 0 ∨ mn.bbox.2.2.2 = 0 then .error .zeroDivisionError
               else
                 let sc := min (mw / mn.bbox.2.2.1) (mh / mn.bbox.2.2.2)
                 .ok (sc, sc, -rx, -ry, none)
             | .error e, _, _, _ => .error e
             | _, .error e, _, _ => .error e
             | _, _, .error e, _ => .error e
             | _, _, _, .error e => .error e
           : Except Err (ℚ × ℚ × ℚ × ℚ × Option (ℚ × ℚ × ℚ × ℚ))) with
        | .error e => .error e
        | .ok (scale_x, scale_y, translate_x, translate_y, clip_box) =>
          let node_angle := mn.orient.getD "0".toList
          match
            (if ¬(node_angle = "auto".toList ∨ node_angle = "auto-start-reverse".toList) then
               match parseNum node_angle with
               | none => .error .valueError
               | some q => .ok (some (radiansR q))
             else if node_angle = "auto-start-reverse".toList ∧ position = "start".toList then
               match angle0 with
               | none => .error .typeError
               | some a => .ok (some (a + radiansR 180))
             else .ok angle0 : Except Err (Option ℝ)) with
          | .error e => .error e
          | .ok angleA =>
            match angleA with
            | none => .error .typeError
            | some a0 =>
              let angle := a0 + radiansR 180
              let overflow := mn.overflow.getD "hidden".toList
              match
                (match mn.children with
                 | [] => .ok []
                 | _ =>
                   match pv.pairR with
                   | .error e => .error e
                   | .ok pr =>
                     .ok (mn.children.flatMap (fun i =>
                       [Ev.save, Ev.translate pr, Ev.rotateEv angle,
                        Ev.scaleEv (scaleV : ℝ) (scaleV : ℝ),
                        Ev.scaleEv (scale_x : ℝ) (scale_y : ℝ),
                        Ev.translate ((translate_x : ℝ), (translate_y : ℝ))] ++
                       (match clip_box with
                        | some cb =>
                          if overflow = "hidden".toList ∨ overflow = "scroll".toList then
                            [Ev.save, Ev.rectangle cb, Ev.restore, Ev.clipEv]
                          else []
                        | none => []) ++
                       [Ev.drawChild i, Ev.restore]))
                 : Except Err (List Ev)) with
              | .error e => .error e
              | .ok childEvs =>
                .ok ([Ev.copyPath, Ev.newPath] ++ childEvs ++ [Ev.appendPath])

/-- One iteration of the `while node.vertices` loop of `draw_markers`
(lines 32-121): pop a point and, when available, the following entry as the
angle pair; compute the orientation angle by position; draw the marker for the
current position; report the surface calls, the ghost log entry
`(position, point, computed angle)`, the updated `angle1`/`angle2`, and the
next iteration's position. -/
noncomputable def mstep (surface : MSurface) (ms mm ml : Str) (pv : Vtx)
    (angles : Option Vtx) (angle1 angle2 : Option ℝ) (position : Str) :
    Except Err (List Ev × (Str × Vtx × Option ℝ) × Option ℝ × Option ℝ × Str) :=
  let sel := fun (p : Str) =>
    if p = "start".toList then ms else if p = "mid".toList then mm else ml
  match angles with
  | some av =>
    if av.truthy then
      match
        (if position = "start".toList then .ok (Real.pi - av.fstR)
         else
           match angle2 with
           | none => .error .typeError
           | some a2 => .ok ((a2 + Real.pi - av.fstR) / 2) : Except Err ℝ) with
      | .error e => .error e
      | .ok angle =>
        match drawMarkerBlock surface (sel position) position pv (some angle) with
        | .error e => .error e
        | .ok evs =>
          .ok (evs, (position, pv, some angle), some av.fstR, some av.sndR, "mid".toList)
    else
      match drawMarkerBlock surface (sel "end".toList) "end".toList pv angle1 with
      | .error e => .error e
      | .ok evs =>
        .ok (evs, ("end".toList, pv, angle1), angle1, angle2, "start".toList)
  | none =>
    match drawMarkerBlock surface (sel "end".toList) "end".toList pv angle1 with
    | .error e => .error e
    | .ok evs =>
      .ok (evs, ("end".toList, pv, angle1), angle1, angle2, "start".toList)

/-- The full vertex-stream walk of `draw_markers`. -/
noncomputable def mwalk (surface : MSurface) (ms mm ml : Str) :
    List Vtx → Option ℝ → Option ℝ → Str →
    Except Err (List Ev × List (Str × Vtx × Option ℝ))
  | [], _, _, _ => .ok ([], [])
  | [pv], a1, a2, pos =>
    match mstep surface ms mm ml pv none a1 a2 pos with
    | .error e => .error e
    | .ok (evs, entry, _, _, _) => .ok (evs, [entry])
  | pv :: av :: rest, a1, a2, pos =>
    match mstep surface ms mm ml pv (some av) a1 a2 pos with
    | .error e => .error e
    | .ok (evs, entry, a1', a2', pos') =>
      match mwalk surface ms mm ml rest a1' a2' pos' with
      | .error e => .error e
      | .ok (evs', log) => .ok (evs ++ evs', entry :: log)

/-- `draw_markers`: return immediately when the node has no (or an empty)
vertex stream; otherwise resolve the three marker references and walk the
stream, destructively consuming it. On success the node's vertex stream is
empty; the emitted surface calls and the ghost log of computed orientation
angles are returned alongside. -/
noncomputable def draw_markers (surface : MSurface) (node : MNode) :
    Except Err (MNode × List Ev × List (Str × Vtx × Option ℝ)) :=
  match node.vertices with
  | none => .ok (node, [], [])
  | some vs =>
    if vs.isEmpty then .ok (node, [], [])
    else
      let r := resolveMarkers node
      match mwalk surface r.1 r.2.1 r.2.2 vs none none "start".toList with
      | .error e => .error e
      | .ok (evs, log) => .ok ({ node with vertices := some [] }, evs, log)

theorem isDig_digChar : ∀ n, isDig (digChar n) = true
  | 0 | 1 | 2 | 3 | 4 | 5 | 6 | 7 | 8 => rfl
  | _ + 9 => rfl

theorem digVal_digChar (n : ℕ) (h : n < 10) : digVal (digChar n) = n := by
  interval_cases n <;> rfl

theorem parseNatAux_append (a : ℕ) (xs ys : Str) :
    parseNatAux a (xs ++ ys) = parseNatAux (parseNatAux a xs) ys := by
  induction xs generalizing a with
  | nil => rfl
  | cons c t ih => exact ih (a * 10 + digVal c)

theorem natDigitsAux_succ (fuel n : ℕ) :
    natDigitsAux (fuel + 1) n =
      if n < 10 then [digChar n] else natDigitsAux fuel (n / 10) ++ [digChar (n % 10)] := rfl

theorem parseNatAux_nil (a : ℕ) : parseNatAux a [] = a := rfl

theorem parseNatAux_cons (a : ℕ) (c : Char) (t : Str) :
    parseNatAux a (c :: t) = parseNatAux (a * 10 + digVal c) t := rfl

theorem parseNatAux_natDigitsAux (fuel : ℕ) :
    ∀ n a, n < fuel →
      parseNatAux a (natDigitsAux fuel n) = a * 10 ^ (natDigitsAux fuel n).length + n := by
  induction fuel with
  | zero => intro n a h; omega
  | succ f ih =>
    intro n a h
    by_cases h10 : n < 10
    · rw [natDigitsAux_succ, if_pos h10, parseNatAux_cons, parseNatAux_nil,
        List.length_singleton, pow_one, digVal_digChar n h10]
    · have hdiv : n / 10 < n := Nat.div_lt_self (by omega) (by norm_num)
      have hf : n / 10 < f := by omega
      have hmod : n % 10 < 10 := Nat.mod_lt _ (by norm_num)
      rw [natDigitsAux_succ, if_neg h10, parseNatAux_append, ih (n / 10) a hf,
        parseNatAux_cons, parseNatAux_nil, List.length_append, List.length_singleton,
        digVal_digChar (n % 10) hmod, pow_succ]
      have := Nat.div_add_mod n 10
      ring_nf
      omega

theorem parseNatAux_natDigits (n : ℕ) : parseNatAux 0 (natDigits n) = n := by
  have := parseNatAux_natDigitsAux (n + 1) n 0 (by omega)
  simpa using this

theorem natDigitsAux_all_isDig (fuel : ℕ) : ∀ n, (natDigitsAux fuel n).all isDig = true := by
  induction fuel with
  | zero => intro n; rfl
  | succ f ih =>
    intro n
    by_cases h10 : n < 10
    · rw [natDigitsAux_succ, if_pos h10]
      simp [isDig_digChar]
    · rw [natDigitsAux_succ, if_neg h10]
      simp [List.all_append, ih (n / 10), isDig_digChar]

theorem natDigits_all_isDig (n : ℕ) : (natDigits n).all isDig = true :=
  natDigitsAux_all_isDig (n + 1) n

theorem natDigitsAux_ne_nil (fuel n : ℕ) (h : 0 < fuel) : natDigitsAux fuel n ≠ [] := by
  match fuel, h with
  | f + 1, _ =>
    rw [natDigitsAux_succ]
    by_cases h10 : n < 10
    · simp [if_pos h10]
    · simp [if_neg h10]

theorem natDigits_ne_nil (n : ℕ) : natDigits n ≠ [] :=
  natDigitsAux_ne_nil (n + 1) n (by omega)

theorem natDigitsAux_length_le (fuel : ℕ) :
    ∀ n k, n < 10 ^ k → 1 ≤ k → n < fuel → (natDigitsAux fuel n).length ≤ k := by
  induction fuel with
  | zero => intro n k _ _ h; omega
  | succ f ih =>
    intro n k hk h1 hf
    by_cases h10 : n < 10
    · rw [natDigitsAux_succ, if_pos h10]
      simpa using h1
    · have hk2 : 2 ≤ k := by
        by_contra hc
        have hke : k = 1 := by omega
        subst hke
        simp only [pow_one] at hk
        omega
      have hdivlt : n / 10 < 10 ^ (k - 1) := by
        rw [Nat.div_lt_iff_lt_mul (by norm_num : 0 < 10)]
        calc n < 10 ^ k := hk
        _ = 10 ^ (k - 1) * 10 := by
            rw [← pow_succ]
            congr 1
            omega
      have hdiv : n / 10 < n := Nat.div_lt_self (by omega) (by norm_num)
      have hrec := ih (n / 10) (k - 1) hdivlt (by omega) (by omega)
      rw [natDigitsAux_succ, if_neg h10, List.length_append, List.length_singleton]
      omega

theorem parseNatAux_zeros (j : ℕ) (ds : Str) :
    parseNatAux 0 (List.replicate j '0' ++ ds) = parseNatAux 0 ds := by
  induction j with
  | zero => rfl
  | succ i ih =>
    rw [List.replicate_succ, List.cons_append, parseNatAux_cons]
    simpa [digVal] using ih

theorem takeWhile_all_append (p : Char → Bool) (ds : Str) (c : Char) (r : Str)
    (h : ds.all p = true) (hc : p c = false) :
    (ds ++ c :: r).takeWhile p = ds ∧ (ds ++ c :: r).dropWhile p = c :: r := by
  induction ds with
  | nil => simp [List.takeWhile, List.dropWhile, hc]
  | cons d t ih =>
    simp only [List.all_cons, Bool.and_eq_true] at h
    have := ih h.2
    simp [List.takeWhile, List.dropWhile, h.1, this.1, this.2]

theorem takeWhile_all_self (p : Char → Bool) (ds : Str) (h : ds.all p = true) :
    ds.takeWhile p = ds ∧ ds.dropWhile p = [] := by
  induction ds with
  | nil => simp
  | cons d t ih =>
    simp only [List.all_cons, Bool.and_eq_true] at h
    have := ih h.2
    simp [List.takeWhile, List.dropWhile, h.1, this.1, this.2]

theorem parseUnsigned_natDigits (n : ℕ) : parseUnsigned (natDigits n) = some (n : ℚ) := by
  have hall := natDigits_all_isDig n
  have hsf := takeWhile_all_self isDig (natDigits n) hall
  have hne := natDigits_ne_nil n
  simp only [parseUnsigned, hsf.1, hsf.2]
  rw [if_neg (by simpa using hne)]
  rw [parseNatAux_natDigits]

theorem parseUnsigned_digits_frac (ipn : ℕ) (k : ℕ) (fr : Str)
    (hfr : fr.all isDig = true) (hlen : fr.length = k) :
    parseUnsigned (natDigits ipn ++ '.' :: fr) =
      some ((ipn : ℚ) + (parseNatAux 0 fr : ℕ) / 10 ^ k) := by
  have hall := natDigits_all_isDig ipn
  have hsp := takeWhile_all_append isDig (natDigits ipn) '.' fr hall (by decide)
  have hne := natDigits_ne_nil ipn
  simp only [parseUnsigned, hsp.1, hsp.2]
  rw [if_pos]
  · rw [parseNatAux_natDigits, hlen]
  · simp [hfr, List.isEmpty_iff, hne]

theorem replicate_zero_all_isDig (j : ℕ) : (List.replicate j '0').all isDig = true := by
  induction j with
  | zero => rfl
  | succ i ih => simpa only [List.replicate_succ, List.all_cons, Bool.and_eq_true] using
      ⟨by decide, ih⟩

theorem padLeft_all_isDig (k : ℕ) (ds : Str) (h : ds.all isDig = true) :
    (padLeft k ds).all isDig = true := by
  simp only [padLeft, List.all_append, h, Bool.and_true, replicate_zero_all_isDig]

theorem padLeft_length (k : ℕ) (ds : Str) (h : ds.length ≤ k) :
    (padLeft k ds).length = k := by
  simp only [padLeft, List.length_append, List.length_replicate]
  omega

theorem parseNatAux_padLeft (k : ℕ) (ds : Str) :
    parseNatAux 0 (padLeft k ds) = parseNatAux 0 ds := by
  simp only [padLeft, parseNatAux_zeros]

theorem decExp_den (q : ℚ) (k : ℕ) (h : decExp q = some k) : (q * 10 ^ k).den = 1 := by
  have := List.find?_some h
  simpa using this

theorem den_one_cast (r : ℚ) (h : r.den = 1) : ((r.num : ℚ)) = r := by
  have := r.num_div_den
  rw [h] at this
  simpa using this

theorem fmtQ_eq (q : ℚ) (k : ℕ) (h : decExp q = some k) :
    fmtQ q = (if (q * 10 ^ k).num < 0 then ['-'] else []) ++
      (if k = 0 then natDigits (q * 10 ^ k).num.natAbs
       else natDigits ((q * 10 ^ k).num.natAbs / 10 ^ k) ++ '.' ::
         padLeft k (natDigits ((q * 10 ^ k).num.natAbs % 10 ^ k))) := by
  simp only [fmtQ, h]
  by_cases hk : k = 0 <;> simp [hk]

theorem natAbs_cast_of_neg (m : ℤ) (h : m < 0) : ((m.natAbs : ℚ)) = -(m : ℚ) := by
  have h1 : |m| = -m := abs_of_neg h
  rw [Int.cast_natAbs, h1]
  push_cast
  ring

theorem natAbs_cast_of_nonneg (m : ℤ) (h : 0 ≤ m) : ((m.natAbs : ℚ)) = (m : ℚ) := by
  have h1 : |m| = m := abs_of_nonneg h
  rw [Int.cast_natAbs, h1]

theorem parseNum_digits_head (ds : Str) (hne : ds ≠ []) (hall : ds.all isDig = true) :
    parseNum ds = parseUnsigned ds := by
  cases ds with
  | nil => exact absurd rfl hne
  | cons c cs =>
    have hcdig : isDig c = true := by
      simp only [List.all_cons, Bool.and_eq_true] at hall
      exact hall.1
    have h1 : c ≠ '-' := by intro he; subst he; exact absurd hcdig (by decide)
    have h2 : c ≠ '+' := by intro he; subst he; exact absurd hcdig (by decide)
    simp only [parseNum, if_neg h1, if_neg h2]

/-- Round-trip of the degenerate-arc coordinate formatting: a rational with a
decimal representation parses back from its formatting exactly. -/
theorem parseNum_fmtQ (q : ℚ) (k : ℕ) (h : decExp q = some k) :
    parseNum (fmtQ q) = some q := by
  have hden := decExp_den q k h
  have hcast : ((q * 10 ^ k).num : ℚ) = q * 10 ^ k := den_one_cast _ hden
  have hfmt := fmtQ_eq q k h
  obtain ⟨m, hm⟩ : ∃ m, (q * 10 ^ k).num = m := ⟨_, rfl⟩
  rw [hm] at hcast hfmt
  have h10 : (10 : ℚ) ^ k ≠ 0 := by positivity
  have hq : q = (m : ℚ) / 10 ^ k := by
    rw [eq_div_iff h10]
    exact hcast.symm
  by_cases hk : k = 0
  · subst hk
    have hq0 : q = (m : ℚ) := by simpa using hq
    by_cases hneg : m < 0
    · have hf : fmtQ q = '-' :: natDigits m.natAbs := by
        rw [hfmt, if_pos hneg, if_pos rfl]
        rfl
      rw [hf]
      simp only [parseNum, if_pos rfl]
      rw [parseUnsigned_natDigits]
      show some (-((m.natAbs : ℕ) : ℚ)) = some q
      congr 1
      rw [natAbs_cast_of_neg m hneg, hq0]
      ring
    · have hf : fmtQ q = natDigits m.natAbs := by
        rw [hfmt, if_neg hneg, if_pos rfl, List.nil_append]
      rw [hf, parseNum_digits_head _ (natDigits_ne_nil _) (natDigits_all_isDig _),
        parseUnsigned_natDigits]
      congr 1
      rw [natAbs_cast_of_nonneg m (not_lt.mp hneg), hq0]
  · have hkpos : 1 ≤ k := by omega
    have hpow0 : 0 < (10 : ℕ) ^ k := by positivity
    have hmodlt : m.natAbs % 10 ^ k < 10 ^ k := Nat.mod_lt _ hpow0
    have hfr_all : (padLeft k (natDigits (m.natAbs % 10 ^ k))).all isDig = true :=
      padLeft_all_isDig _ _ (natDigits_all_isDig _)
    have hdiglen : (natDigits (m.natAbs % 10 ^ k)).length ≤ k := by
      rcases Nat.eq_zero_or_pos (m.natAbs % 10 ^ k) with hz | hp
      · rw [hz]
        have h01 : natDigits 0 = ['0'] := rfl
        rw [h01]
        simpa using hkpos
      · exact natDigitsAux_length_le _ _ _ hmodlt hkpos (by omega)
    have hfr_len : (padLeft k (natDigits (m.natAbs % 10 ^ k))).length = k :=
      padLeft_length _ _ hdiglen
    have hcore :
        parseUnsigned (natDigits (m.natAbs / 10 ^ k) ++ '.' ::
            padLeft k (natDigits (m.natAbs % 10 ^ k))) =
          some ((m.natAbs : ℚ) / 10 ^ k) := by
      rw [parseUnsigned_digits_frac _ k _ hfr_all hfr_len, parseNatAux_padLeft,
        parseNatAux_natDigits]
      congr 1
      have hsplit : (10 : ℕ) ^ k * (m.natAbs / 10 ^ k) + m.natAbs % 10 ^ k = m.natAbs :=
        Nat.div_add_mod _ _
      have hsq := congrArg (fun n : ℕ => (n : ℚ)) hsplit
      push_cast at hsq
      field_simp
      linarith
    by_cases hneg : m < 0
    · have hf : fmtQ q = '-' :: (natDigits (m.natAbs / 10 ^ k) ++ '.' ::
          padLeft k (natDigits (m.natAbs % 10 ^ k))) := by
        rw [hfmt, if_pos hneg, if_neg hk]
        rfl
      rw [hf]
      simp only [parseNum, if_pos rfl]
      rw [hcore]
      show some (-(((m.natAbs : ℕ) : ℚ) / 10 ^ k)) = some q
      congr 1
      rw [natAbs_cast_of_neg m hneg, hq]
      ring
    · have hf : fmtQ q = natDigits (m.natAbs / 10 ^ k) ++ '.' ::
          padLeft k (natDigits (m.natAbs % 10 ^ k)) := by
        rw [hfmt, if_neg hneg, if_neg hk, List.nil_append]
      rw [hf]
      obtain ⟨c, cs, hcons⟩ : ∃ c cs, natDigits (m.natAbs / 10 ^ k) = c :: cs := by
        cases hnd : natDigits (m.natAbs / 10 ^ k) with
        | nil => exact absurd hnd (natDigits_ne_nil _)
        | cons c cs => exact ⟨c, cs, rfl⟩
      have hcdig : isDig c = true := by
        have hall := natDigits_all_isDig (m.natAbs / 10 ^ k)
        rw [hcons] at hall
        simp only [List.all_cons, Bool.and_eq_true] at hall
        exact hall.1
      have h1 : c ≠ '-' := by intro he; subst he; exact absurd hcdig (by decide)
      have h2 : c ≠ '+' := by intro he; subst he; exact absurd hcdig (by decide)
      rw [hcons, List.cons_append]
      simp only [parseNum, if_neg h1, if_neg h2]
      rw [← List.cons_append, ← hcons, hcore]
      congr 1
      rw [natAbs_cast_of_nonneg m (not_lt.mp hneg), hq]

theorem splitSp_nil : splitSp [] = ([], none) := rfl

theorem splitSp_cons (c : Char) (t : Str) :
    splitSp (c :: t) = if c = ' ' then ([], some t) else (c :: (splitSp t).1, (splitSp t).2) :=
  rfl

theorem splitSp_token (t r : Str) (h : ' ' ∉ t) : splitSp (t ++ ' ' :: r) = (t, some r) := by
  induction t with
  | nil =>
    rw [List.nil_append, splitSp_cons, if_pos rfl]
  | cons c cs ih =>
    have hc : ¬c = ' ' := fun e => h (by simp [e])
    have h' : ' ' ∉ cs := fun m => h (List.mem_cons_of_mem _ m)
    rw [List.cons_append, splitSp_cons, if_neg hc, ih h']

theorem splitSp_nosp (t : Str) (h : ' ' ∉ t) : splitSp t = (t, none) := by
  induction t with
  | nil => rfl
  | cons c cs ih =>
    have hc : ¬c = ' ' := fun e => h (by simp [e])
    have h' : ' ' ∉ cs := fun m => h (List.mem_cons_of_mem _ m)
    rw [splitSp_cons, if_neg hc, ih h']

theorem splitAdd_token (t r : Str) (h : ' ' ∉ t) : splitAdd (t ++ ' ' :: r) = (t, r ++ [' ']) := by
  have : (t ++ ' ' :: r) ++ [' '] = t ++ ' ' :: (r ++ [' ']) := by simp
  rw [splitAdd, this, splitSp_token _ _ h]

theorem splitAdd_single (t : Str) (h : ' ' ∉ t) : splitAdd t = (t, []) := by
  have : t ++ [' '] = t ++ ' ' :: ([] : Str) := rfl
  rw [splitAdd, this, splitSp_token _ _ h]

theorem point_cons (t1 t2 r : Str) (v1 v2 : ℚ) (h1 : ' ' ∉ t1) (h2 : ' ' ∉ t2)
    (hp1 : parseNum t1 = some v1) (hp2 : parseNum t2 = some v2) :
    point (t1 ++ ' ' :: (t2 ++ ' ' :: r)) = .ok (v1, v2, r ++ [' ']) := by
  have e1 : (t1 ++ ' ' :: (t2 ++ ' ' :: r)) ++ [' '] =
      t1 ++ ' ' :: (t2 ++ ' ' :: (r ++ [' '])) := by simp
  rw [point, e1, splitSp_token _ _ h1]
  simp only [splitSp_token _ _ h2, hp1, hp2]

theorem point_last (t1 t2 : Str) (v1 v2 : ℚ) (h1 : ' ' ∉ t1) (h2 : ' ' ∉ t2)
    (hp1 : parseNum t1 = some v1) (hp2 : parseNum t2 = some v2) :
    point (t1 ++ ' ' :: t2) = .ok (v1, v2, []) := by
  have e1 : (t1 ++ ' ' :: t2) ++ [' '] = t1 ++ ' ' :: (t2 ++ ' ' :: ([] : Str)) := by simp
  rw [point, e1, splitSp_token _ _ h1]
  simp only [splitSp_token _ _ h2, hp1, hp2]

theorem stripSp_leading (s : Str) : stripSp (' ' :: s) = stripSp s := by
  simp only [stripSp, List.dropWhile_cons]
  norm_num

theorem stripSp_trailing (s : Str) : stripSp (s ++ [' ']) = stripSp s := by
  simp only [stripSp]
  rcases hd : s.dropWhile (fun c => c = ' ') with _ | ⟨c, t⟩
  · rw [List.dropWhile_append, hd]
    simp
  · rw [List.dropWhile_append, hd]
    simp only [List.isEmpty_cons, Bool.false_eq_true, if_false]
    rw [List.reverse_append]
    simp only [List.reverse_cons, List.reverse_nil, List.nil_append, List.singleton_append,
      List.dropWhile_cons]
    norm_num

theorem lastIn3_lastIn5 (o : Option Str) (h : lastIn3 o = true) : lastIn5 o = true := by
  cases o with
  | none => rfl
  | some t =>
    simp only [lastIn3, Bool.or_eq_true, decide_eq_true_eq] at h
    simp only [lastIn5, Bool.or_eq_true, decide_eq_true_eq]
    tauto


/-- Number of subpath breaks of a successful run. -/
def Res.brks : Res → Option ℕ
  | .ok σ => some (brkCount σ.vertices)
  | _ => none

/-- C2 (amended): a closepath read when the previous executed command is
`None` (or another closepath) issues no close-path draw call and leaves the
current point unchanged — but the command-letter prologue does append a seed
Point (the current point) to the vertex stream, so the stream is not left
unchanged as the original claim states. -/
theorem C2_theorem (σ : St) (s0 r : Str) (hs : stripSp s0 = 'Z' :: ' ' :: r)
    (h : lastIn3 σ.last_letter = true) :
    step σ s0 =
      .next { σ with
        letter := some ['Z'],
        last_letter := some ['Z'],
        first_path_point := none,
        vertices := σ.vertices ++ [Vtx.pt σ.current_point] }
      (stripSp (r ++ [' '])) := by
  have hsp : splitSp ('Z' :: ' ' :: r) = (['Z'], some r) := by
    rw [splitSp_cons, if_neg (by decide), splitSp_cons, if_pos rfl]
  have hadd : splitAdd ('Z' :: ' ' :: r) = (['Z'], r ++ [' ']) :=
    splitAdd_token ['Z'] r (by decide)
  have h5 := lastIn3_lastIn5 _ h
  simp only [step, hs, prologue, hsp, hadd, h, h5, dispatch, zB, postStep]
  simp [h, h5, show infixB ['Z'] PATH_LETTERS = true from by decide,
    show infixB ['Z'] ['m', 'M'] = false from by decide,
    show infixB ['Z'] ['a', 'A'] = false from by decide,
    show infixB ['Z'] ['z', 'Z'] = true from by decide,
    letterNotIn5]

/-- Witness for C2: the `Z` step of `"Z L5 5"` from the initial state. -/
theorem C2_witness :
    step initSt ("Z L5 5".toList) =
      .next { initSt with
        letter := some ['Z'],
        last_letter := some ['Z'],
        first_path_point := none,
        vertices := initSt.vertices ++ [Vtx.pt initSt.current_point] }
      (stripSp ("L5 5".toList ++ [' '])) :=
  C2_theorem initSt ("Z L5 5".toList) ("L5 5".toList) (by decide) (by decide)

/-- Counterexample for C2 as stated: on `"Z M10 10 L20 20"` the leading `Z`
does append an entry (the seed point `(0,0)`) to the vertex stream — the
stream differs from the one produced without the leading `Z`. -/
theorem C2_counterexample :
    (path "Z M10 10 L20 20".toList none 9).tags =
        some [.p (0, 0), .p (10, 10), .a, .p (20, 20)] ∧
      (path "M10 10 L20 20".toList none 9).tags = some [.p (10, 10), .a, .p (20, 20)] ∧
      (path "Z M10 10 L20 20".toList none 9).tags ≠
        (path "M10 10 L20 20".toList none 9).tags := by
  refine ⟨by decide, by decide, ?_⟩
  intro h
  rw [show (path "Z M10 10 L20 20".toList none 9).tags =
      some [VTag.p (0, 0), .p (10, 10), .a, .p (20, 20)] from by decide,
    show (path "M10 10 L20 20".toList none 9).tags =
      some [VTag.p (10, 10), .a, .p (20, 20)] from by decide] at h
  exact absurd h (by decide)

/-- C9 (amended): a moveto command (`M` or `m`) appends a Subpath Break
before moving if and only if a previous command was executed and it was not a
closepath; after a `z`/`Z` (or at the start of the string) no break is
appended.  `M` moves to the absolute point, `m` offsets the current point. -/
theorem C9_theorem (σ : St) (s0 t1 t2 r : Str) (v1 v2 : ℚ)
    (h1 : ' ' ∉ t1) (h2 : ' ' ∉ t2)
    (hp1 : parseNum t1 = some v1) (hp2 : parseNum t2 = some v2) :
    (stripSp s0 = 'M' :: ' ' :: (t1 ++ ' ' :: (t2 ++ ' ' :: r)) →
      step σ s0 =
        .next { σ with
          letter := some ['M'],
          last_letter := some ['M'],
          first_path_point := if lastIn5 σ.last_letter = true then none else σ.first_path_point,
          vertices := (if lastTruthyNotZ σ.last_letter = true then σ.vertices ++ [Vtx.brk]
            else σ.vertices) ++ [Vtx.pt (v1, v2)],
          trace := σ.trace ++ [Ev.moveTo (v1, v2)],
          current_point := (v1, v2) }
        (stripSp ((r ++ [' ']) ++ [' ']))) ∧
    (stripSp s0 = 'm' :: ' ' :: (t1 ++ ' ' :: (t2 ++ ' ' :: r)) →
      step σ s0 =
        .next { σ with
          letter := some ['m'],
          last_letter := some ['m'],
          first_path_point := if lastIn5 σ.last_letter = true then none else σ.first_path_point,
          vertices := (if lastTruthyNotZ σ.last_letter = true then σ.vertices ++ [Vtx.brk]
            else σ.vertices) ++ [Vtx.pt (σ.current_point.1 + v1, σ.current_point.2 + v2)],
          trace := σ.trace ++ [Ev.relMoveTo (v1, v2)],
          current_point := (σ.current_point.1 + v1, σ.current_point.2 + v2) }
        (stripSp ((r ++ [' ']) ++ [' ']))) := by
  have hpt : point (t1 ++ ' ' :: (t2 ++ ' ' :: (r ++ [' ']))) =
      .ok (v1, v2, (r ++ [' ']) ++ [' ']) :=
    point_cons t1 t2 (r ++ [' ']) v1 v2 h1 h2 hp1 hp2
  constructor
  · intro hs
    have hsp : (splitSp ('M' :: ' ' :: (t1 ++ ' ' :: (t2 ++ ' ' :: r)))).1 = ['M'] := by
      rw [splitSp_cons, if_neg (by decide), splitSp_cons, if_pos rfl]
    have hadd : splitAdd ('M' :: ' ' :: (t1 ++ ' ' :: (t2 ++ ' ' :: r))) =
        (['M'], (t1 ++ ' ' :: (t2 ++ ' ' :: r)) ++ [' ']) :=
      splitAdd_token ['M'] _ (by decide)
    by_cases h5 : lastIn5 σ.last_letter = true <;>
      simp [step, hs, prologue, hsp, hadd, dispatch, MB, hpt, postStep, h5,
        show infixB ['M'] PATH_LETTERS = true from by decide,
        show infixB ['M'] ['m', 'M'] = true from by decide,
        show infixB ['M'] ['a', 'A'] = false from by decide,
        show infixB ['M'] ['z', 'Z'] = false from by decide,
        letterNotIn5, lastIn3]
  · intro hs
    have hsp : (splitSp ('m' :: ' ' :: (t1 ++ ' ' :: (t2 ++ ' ' :: r)))).1 = ['m'] := by
      rw [splitSp_cons, if_neg (by decide), splitSp_cons, if_pos rfl]
    have hadd : splitAdd ('m' :: ' ' :: (t1 ++ ' ' :: (t2 ++ ' ' :: r))) =
        (['m'], (t1 ++ ' ' :: (t2 ++ ' ' :: r)) ++ [' ']) :=
      splitAdd_token ['m'] _ (by decide)
    by_cases h5 : lastIn5 σ.last_letter = true <;>
      simp [step, hs, prologue, hsp, hadd, dispatch, mB, hpt, postStep, h5,
        show infixB ['m'] PATH_LETTERS = true from by decide,
        show infixB ['m'] ['m', 'M'] = true from by decide,
        show infixB ['m'] ['a', 'A'] = false from by decide,
        show infixB ['m'] ['z', 'Z'] = false from by decide,
        letterNotIn5, lastIn3]

/-- Witness for C9: moveto steps whose previous letter is `Z` (as in
`"M0 0 L1 1 Z M5 5 Z"`, tokenized): no break is appended, for `M` (absolute)
and `m` (relative) alike. -/
theorem C9_witness :
    (step
        { initSt with
          last_letter := some ['Z'],
          current_point := (0, 0),
          first_path_point := some (0, 0),
          vertices := [Vtx.pt (0, 0)] }
        ("M 5 5 Z".toList) =
      .next { initSt with
        letter := some ['M'],
        last_letter := some ['M'],
        first_path_point := none,
        vertices := [Vtx.pt (0, 0), Vtx.pt (5, 5)],
        trace := [Ev.moveTo (5, 5)],
        current_point := (5, 5) }
      (stripSp ((['Z'] ++ [' ']) ++ [' ']))) ∧
    (step
        { initSt with
          last_letter := some ['Z'],
          current_point := (1, 1),
          first_path_point := some (0, 0),
          vertices := [Vtx.pt (0, 0)] }
        ("m 5 5 Z".toList) =
      .next { initSt with
        letter := some ['m'],
        last_letter := some ['m'],
        first_path_point := none,
        vertices := [Vtx.pt (0, 0), Vtx.pt (6, 6)],
        trace := [Ev.relMoveTo (5, 5)],
        current_point := (6, 6) }
      (stripSp ((['Z'] ++ [' ']) ++ [' ']))) := by
  constructor
  · have h := (C9_theorem
      { initSt with
        last_letter := some ['Z'],
        current_point := (0, 0),
        first_path_point := some (0, 0),
        vertices := [Vtx.pt (0, 0)] }
      ("M 5 5 Z".toList) ['5'] ['5'] ['Z'] 5 5 (by decide) (by decide)
      (by decide) (by decide)).1 (by decide)
    simpa using h
  · have h := (C9_theorem
      { initSt with
        last_letter := some ['Z'],
        current_point := (1, 1),
        first_path_point := some (0, 0),
        vertices := [Vtx.pt (0, 0)] }
      ("m 5 5 Z".toList) ['5'] ['5'] ['Z'] 5 5 (by decide) (by decide)
      (by decide) (by decide)).2 (by decide)
    simpa using h

/-- Counterexample for C9 as stated: in `"M0 0 L1 1 Z M5 5"` the second `M` is
not the first command, yet the final stream contains a single Subpath Break
(the one appended by `Z`) — the moveto after a closepath appends none. -/
theorem C9_counterexample :
    (path "M0 0 L1 1 Z M5 5".toList none 9).tags =
        some [.p (0, 0), .a, .p (1, 1), .b, .p (5, 5)] ∧
      (path "M0 0 L1 1 Z M5 5".toList none 9).brks = some 1 ∧ (1 : ℕ) ≠ 2 := by
  refine ⟨by decide, by decide, by decide⟩

/-- Error projection of a `draw_markers` result. -/
def mErr? {α : Type} : Except Err α → Option Err
  | .error e => some e
  | .ok _ => none

/-- A surface with no marker definitions. -/
def c3surf : MSurface := ⟨[], some "1".toList⟩

/-- A path node whose `marker-start` refers to an undefined marker `#m` and
whose vertex stream holds one segment. -/
def c3node : MNode :=
  ⟨some [Vtx.pt (0, 0), Vtx.ang (0, 0), Vtx.pt (1, 0)],
   [("marker-start".toList, "url(#m)".toList)]⟩

/-- C3 (amended): a marker position whose reference is absent or has an empty
fragment is skipped without error; but a non-empty fragment that is not in
`surface.markers` makes the marker block fail (the `dict.get` returns `None`
and the following attribute access raises `AttributeError`), rather than being
skipped. -/
theorem C3_theorem (surface : MSurface) (marker position : Str) (pv : Vtx) (a : Option ℝ) :
    (marker = [] → drawMarkerBlock surface marker position pv a = .ok []) ∧
    (marker ≠ [] → alist marker surface.markers = none →
      drawMarkerBlock surface marker position pv a = .error .attributeError) := by
  constructor
  · intro h
    subst h
    simp [drawMarkerBlock]
  · intro h hl
    have hne : marker.isEmpty = false := by
      cases marker with
      | nil => exact absurd rfl h
      | cons c t => rfl
    simp [drawMarkerBlock, hne, hl]

/-- Witness for C3: the empty reference is skipped, the unresolved `"m"` is an
`AttributeError`. -/
theorem C3_witness :
    drawMarkerBlock c3surf [] ("start".toList) (Vtx.pt (0, 0)) none = .ok [] ∧
      drawMarkerBlock c3surf ['m'] ("start".toList) (Vtx.pt (0, 0)) none =
        .error .attributeError :=
  ⟨(C3_theorem c3surf [] ("start".toList) (Vtx.pt (0, 0)) none).1 rfl,
   (C3_theorem c3surf ['m'] ("start".toList) (Vtx.pt (0, 0)) none).2 (by decide) rfl⟩

/-- Counterexample for C3 as stated: a node with `marker-start="url(#m)"` and
no marker named `m` defined makes `draw_markers` raise `AttributeError`
instead of skipping that position. -/
theorem C3_counterexample : mErr? (draw_markers c3surf c3node) = some Err.attributeError := by
  decide

/-- C10: `draw_markers` destructively consumes the vertex stream: a successful
call on a node with a non-empty stream leaves `node.vertices` empty, so a
second call returns immediately with no surface calls; and a node whose
stream is absent or empty is returned untouched with no surface calls. -/
theorem C10_theorem :
    (∀ (surface : MSurface) (node : MNode) (vs : List Vtx) (out : MNode) (evs : List Ev)
        (log : List (Str × Vtx × Option ℝ)),
        node.vertices = some vs → vs ≠ [] →
        draw_markers surface node = .ok (out, evs, log) →
        out.vertices = some [] ∧ draw_markers surface out = .ok (out, [], [])) ∧
    (∀ (surface : MSurface) (node : MNode), node.vertices = none →
        draw_markers surface node = .ok (node, [], [])) ∧
    (∀ (surface : MSurface) (node : MNode), node.vertices = some [] →
        draw_markers surface node = .ok (node, [], [])) := by
  refine ⟨?_, ?_, ?_⟩
  · intro s n vs out evs log hv hne hok
    have hemp : vs.isEmpty = false := by
      cases vs with
      | nil => exact absurd rfl hne
      | cons a t => rfl
    simp only [draw_markers, hv, hemp, Bool.false_eq_true, if_false] at hok
    rcases hw : mwalk s (resolveMarkers n).1 (resolveMarkers n).2.1 (resolveMarkers n).2.2 vs
        none none ("start".toList) with e | p
    · rw [hw] at hok
      exact absurd hok (by simp)
    · rw [hw] at hok
      simp only [Except.ok.injEq, Prod.mk.injEq] at hok
      have hout : out = { n with vertices := some [] } := hok.1.symm
      subst hout
      refine ⟨rfl, ?_⟩
      simp [draw_markers]
  · intro s n h
    simp [draw_markers, h]
  · intro s n h
    simp [draw_markers, h]

/-- Witness for C10: a one-point stream is consumed; the second call does
nothing; the empty and absent cases return immediately. -/
theorem C10_witness :
    ((⟨some [], []⟩ : MNode).vertices = some [] ∧
      draw_markers c3surf (⟨some [], []⟩ : MNode) = .ok (⟨some [], []⟩, [], [])) ∧
    draw_markers c3surf (⟨none, []⟩ : MNode) = .ok (⟨none, []⟩, [], []) ∧
    draw_markers c3surf (⟨some [], []⟩ : MNode) = .ok (⟨some [], []⟩, [], []) :=
  ⟨C10_theorem.1 c3surf ⟨some [Vtx.pt (0, 0)], []⟩ [Vtx.pt (0, 0)] ⟨some [], []⟩ []
      [("end".toList, Vtx.pt (0, 0), none)] rfl (List.cons_ne_nil _ _) (by rfl),
   C10_theorem.2.1 c3surf ⟨none, []⟩ rfl,
   C10_theorem.2.2 c3surf ⟨some [], []⟩ rfl⟩

/-- Trace of a dispatch result, when it is not an exception. -/
def DRes.trace? : DRes → Option (List Ev)
  | .next σ _ _ => some σ.trace
  | .exn _ => none

/-- Vertex stream of a dispatch result, when it is not an exception. -/
def DRes.verts? : DRes → Option (List Vtx)
  | .next σ _ _ => some σ.vertices
  | .exn _ => none

/-- The `rel_curve_to` calls of a trace, with their six coordinates. -/
def Ev.relCurve6? : Ev → Option ((ℚ × ℚ) × (ℚ × ℚ) × (ℚ × ℚ))
  | .relCurveTo a b c => some (a, b, c)
  | _ => none

/-- All relative `rel_curve_to` calls of a successful run. -/
def Res.relCurveTos : Res → Option (List ((ℚ × ℚ) × (ℚ × ℚ) × (ℚ × ℚ)))
  | .ok σ => some (σ.trace.filterMap Ev.relCurve6?)
  | _ => none

/-- C7 (amended): a smooth cubic whose previous executed letter is a cubic
(`c`/`s`/`C`/`S`) synthesizes its first control point from the stored second
control point `(x2, y2)` and the stored previous endpoint `(x3, y3)`: `S`
emits the absolute reflection `(x3 + (x3 − x2), y3 + (y3 − y2))`, while `s`
emits the displacement `(x3 − x2, y3 − y2)` relative to the current point —
both land on the reflection through the current point exactly when the stored
endpoint equals the current point, which holds except when an intervening arc
command was skipped for bad flags.  With any other previous letter `S` uses
the current point and `s` the zero displacement.  On
`"M0 0 C10 0 10 10 20 10 S30 20 40 10"` the synthesized point is `(30, 10)`,
and the relative variant `s10 10 20 0` emits the displacement `(10, 0)`. -/
theorem C7_theorem :
    (∀ (σ : St) (ll t1 t2 t3 t4 r : Str) (v1 v2 v3 v4 : ℚ),
        σ.last_letter = some ll → infixB ll ['c', 's', 'C', 'S'] = true →
        ' ' ∉ t1 → ' ' ∉ t2 → ' ' ∉ t3 → ' ' ∉ t4 →
        parseNum t1 = some v1 → parseNum t2 = some v2 →
        parseNum t3 = some v3 → parseNum t4 = some v4 →
        (SB σ (t1 ++ ' ' :: (t2 ++ ' ' :: (t3 ++ ' ' :: (t4 ++ ' ' :: r))))).trace? =
          some (σ.trace ++
            [Ev.curveTo (σ.x3 + (σ.x3 - σ.x2), σ.y3 + (σ.y3 - σ.y2)) (v1, v2) (v3, v4)])) ∧
    (∀ (σ : St) (ll t1 t2 t3 t4 r : Str) (v1 v2 v3 v4 : ℚ),
        σ.last_letter = some ll → infixB ll ['c', 's', 'C', 'S'] = false →
        ' ' ∉ t1 → ' ' ∉ t2 → ' ' ∉ t3 → ' ' ∉ t4 →
        parseNum t1 = some v1 → parseNum t2 = some v2 →
        parseNum t3 = some v3 → parseNum t4 = some v4 →
        (SB σ (t1 ++ ' ' :: (t2 ++ ' ' :: (t3 ++ ' ' :: (t4 ++ ' ' :: r))))).trace? =
          some (σ.trace ++
            [Ev.curveTo (σ.current_point.1, σ.current_point.2) (v1, v2) (v3, v4)])) ∧
    (∀ (σ : St) (ll t1 t2 t3 t4 r : Str) (v1 v2 v3 v4 : ℚ),
        σ.last_letter = some ll → infixB ll ['c', 's', 'C', 'S'] = true →
        ' ' ∉ t1 → ' ' ∉ t2 → ' ' ∉ t3 → ' ' ∉ t4 →
        parseNum t1 = some v1 → parseNum t2 = some v2 →
        parseNum t3 = some v3 → parseNum t4 = some v4 →
        (sB σ (t1 ++ ' ' :: (t2 ++ ' ' :: (t3 ++ ' ' :: (t4 ++ ' ' :: r))))).trace? =
          some (σ.trace ++
            [Ev.relCurveTo (σ.x3 - σ.x2, σ.y3 - σ.y2) (v1, v2) (v3, v4)])) ∧
    (∀ (σ : St) (ll t1 t2 t3 t4 r : Str) (v1 v2 v3 v4 : ℚ),
        σ.last_letter = some ll → infixB ll ['c', 's', 'C', 'S'] = false →
        ' ' ∉ t1 → ' ' ∉ t2 → ' ' ∉ t3 → ' ' ∉ t4 →
        parseNum t1 = some v1 → parseNum t2 = some v2 →
        parseNum t3 = some v3 → parseNum t4 = some v4 →
        (sB σ (t1 ++ ' ' :: (t2 ++ ' ' :: (t3 ++ ' ' :: (t4 ++ ' ' :: r))))).trace? =
          some (σ.trace ++ [Ev.relCurveTo (0, 0) (v1, v2) (v3, v4)])) ∧
    (∀ σ : St, σ.x3 = σ.current_point.1 → σ.y3 = σ.current_point.2 →
        (σ.current_point.1 + (σ.x3 - σ.x2), σ.current_point.2 + (σ.y3 - σ.y2)) =
          (σ.x3 + (σ.x3 - σ.x2), σ.y3 + (σ.y3 - σ.y2))) ∧
    (path "M0 0 C10 0 10 10 20 10 S30 20 40 10".toList none 9).curveTos =
      some [((10, 0), (10, 10), (20, 10)), ((30, 10), (30, 20), (40, 10))] ∧
    (path "M0 0 C10 0 10 10 20 10 s10 10 20 0".toList none 9).relCurveTos =
      some [((10, 0), (10, 10), (20, 0))] := by
  refine ⟨?_, ?_, ?_, ?_, ?_, by decide, by decide⟩
  · intro σ ll t1 t2 t3 t4 r v1 v2 v3 v4 hll hcs h1 h2 h3 h4 hp1 hp2 hp3 hp4
    have hpt1 : point (t1 ++ ' ' :: (t2 ++ ' ' :: (t3 ++ ' ' :: (t4 ++ ' ' :: r)))) =
        .ok (v1, v2, (t3 ++ ' ' :: (t4 ++ ' ' :: r)) ++ [' ']) :=
      point_cons t1 t2 _ v1 v2 h1 h2 hp1 hp2
    have hpt2 : point (t3 ++ ' ' :: (t4 ++ ' ' :: (r ++ [' ']))) =
        .ok (v3, v4, (r ++ [' ']) ++ [' ']) :=
      point_cons t3 t4 _ v3 v4 h3 h4 hp3 hp4
    simp [SB, hll, hcs, hpt1, hpt2, DRes.trace?]
  · intro σ ll t1 t2 t3 t4 r v1 v2 v3 v4 hll hcs h1 h2 h3 h4 hp1 hp2 hp3 hp4
    have hpt1 : point (t1 ++ ' ' :: (t2 ++ ' ' :: (t3 ++ ' ' :: (t4 ++ ' ' :: r)))) =
        .ok (v1, v2, (t3 ++ ' ' :: (t4 ++ ' ' :: r)) ++ [' ']) :=
      point_cons t1 t2 _ v1 v2 h1 h2 hp1 hp2
    have hpt2 : point (t3 ++ ' ' :: (t4 ++ ' ' :: (r ++ [' ']))) =
        .ok (v3, v4, (r ++ [' ']) ++ [' ']) :=
      point_cons t3 t4 _ v3 v4 h3 h4 hp3 hp4
    simp [SB, hll, hcs, hpt1, hpt2, DRes.trace?]
  · intro σ ll t1 t2 t3 t4 r v1 v2 v3 v4 hll hcs h1 h2 h3 h4 hp1 hp2 hp3 hp4
    have hpt1 : point (t1 ++ ' ' :: (t2 ++ ' ' :: (t3 ++ ' ' :: (t4 ++ ' ' :: r)))) =
        .ok (v1, v2, (t3 ++ ' ' :: (t4 ++ ' ' :: r)) ++ [' ']) :=
      point_cons t1 t2 _ v1 v2 h1 h2 hp1 hp2
    have hpt2 : point (t3 ++ ' ' :: (t4 ++ ' ' :: (r ++ [' ']))) =
        .ok (v3, v4, (r ++ [' ']) ++ [' ']) :=
      point_cons t3 t4 _ v3 v4 h3 h4 hp3 hp4
    simp [sB, hll, hcs, hpt1, hpt2, DRes.trace?]
  · intro σ ll t1 t2 t3 t4 r v1 v2 v3 v4 hll hcs h1 h2 h3 h4 hp1 hp2 hp3 hp4
    have hpt1 : point (t1 ++ ' ' :: (t2 ++ ' ' :: (t3 ++ ' ' :: (t4 ++ ' ' :: r)))) =
        .ok (v1, v2, (t3 ++ ' ' :: (t4 ++ ' ' :: r)) ++ [' ']) :=
      point_cons t1 t2 _ v1 v2 h1 h2 hp1 hp2
    have hpt2 : point (t3 ++ ' ' :: (t4 ++ ' ' :: (r ++ [' ']))) =
        .ok (v3, v4, (r ++ [' ']) ++ [' ']) :=
      point_cons t3 t4 _ v3 v4 h3 h4 hp3 hp4
    simp [sB, hll, hcs, hpt1, hpt2, DRes.trace?]
  · intro σ hx hy
    rw [hx, hy]

/-- Witness for C7: after a `C` with stored control point `(10, 10)` and
endpoint `(20, 10)`, an `S` emits a `curve_to` whose first control point is
the reflection `(30, 10)` and an `s` emits the displacement `(10, 0)`; after
an `L`, `S` uses the current point and `s` the zero displacement. -/
theorem C7_witness :
    (SB
        { initSt with
          last_letter := some ['C'],
          current_point := (20, 10),
          x1 := 10, y1 := 0, x2 := 10, y2 := 10, x3 := 20, y3 := 10 }
        ("30 20 40 10 Z".toList)).trace? =
      some [Ev.curveTo (20 + (20 - 10), 10 + (10 - 10)) (30, 20) (40, 10)] ∧
    (SB
        { initSt with
          last_letter := some ['L'],
          current_point := (20, 10) }
        ("30 20 40 10 Z".toList)).trace? =
      some [Ev.curveTo (20, 10) (30, 20) (40, 10)] ∧
    (sB
        { initSt with
          last_letter := some ['C'],
          current_point := (20, 10),
          x1 := 10, y1 := 0, x2 := 10, y2 := 10, x3 := 20, y3 := 10 }
        ("10 10 20 0 Z".toList)).trace? =
      some [Ev.relCurveTo (20 - 10, 10 - 10) (10, 10) (20, 0)] ∧
    (sB
        { initSt with
          last_letter := some ['L'],
          current_point := (20, 10) }
        ("10 10 20 0 Z".toList)).trace? =
      some [Ev.relCurveTo (0, 0) (10, 10) (20, 0)] := by
  refine ⟨?_, ?_, ?_, ?_⟩
  · have h := C7_theorem.1
      { initSt with
        last_letter := some ['C'],
        current_point := (20, 10),
        x1 := 10, y1 := 0, x2 := 10, y2 := 10, x3 := 20, y3 := 10 }
      ['C'] "30".toList "20".toList "40".toList "10".toList ['Z'] 30 20 40 10
      rfl (by decide) (by decide) (by decide) (by decide) (by decide)
      (by decide) (by decide) (by decide) (by decide)
    simpa using h
  · have h := C7_theorem.2.1
      { initSt with
        last_letter := some ['L'],
        current_point := (20, 10) }
      ['L'] "30".toList "20".toList "40".toList "10".toList ['Z'] 30 20 40 10
      rfl (by decide) (by decide) (by decide) (by decide) (by decide)
      (by decide) (by decide) (by decide) (by decide)
    simpa using h
  · have h := C7_theorem.2.2.1
      { initSt with
        last_letter := some ['C'],
        current_point := (20, 10),
        x1 := 10, y1 := 0, x2 := 10, y2 := 10, x3 := 20, y3 := 10 }
      ['C'] "10".toList "10".toList "20".toList "0".toList ['Z'] 10 10 20 0
      rfl (by decide) (by decide) (by decide) (by decide) (by decide)
      (by decide) (by decide) (by decide) (by decide)
    simpa using h
  · have h := C7_theorem.2.2.2.1
      { initSt with
        last_letter := some ['L'],
        current_point := (20, 10) }
      ['L'] "10".toList "10".toList "20".toList "0".toList ['Z'] 10 10 20 0
      rfl (by decide) (by decide) (by decide) (by decide) (by decide)
      (by decide) (by decide) (by decide) (by decide)
    simpa using h

/-- Counterexample for C7 as stated: in
`"M0 0 C10 0 10 10 20 10 A5 5 0 9 9 7 7 S30 20 40 10"` the arc's flags `9 9`
make it a silently-skipped command, so the previous executed command is still
the cubic; the claim then demands the reflection through the current point,
`(30, 10)`, but the code emits `(4, 4)` because the skipped arc overwrote the
stored endpoint with its raw endpoint `(7, 7)`.  The relative variant
`s30 20 40 10` emits the displacement `(−3, −3)`, i.e. the absolute point
`(20 − 3, 10 − 3) = (17, 7)`, likewise not the claimed reflection. -/
theorem C7_counterexample :
    (path "M0 0 C10 0 10 10 20 10 A5 5 0 9 9 7 7 S30 20 40 10".toList none 9).curveTos =
        some [((10, 0), (10, 10), (20, 10)), ((4, 4), (30, 20), (40, 10))] ∧
      ((4 : ℚ), (4 : ℚ)) ≠ ((30 : ℚ), (10 : ℚ)) ∧
      (path "M0 0 C10 0 10 10 20 10 A5 5 0 9 9 7 7 s30 20 40 10".toList none 9).relCurveTos =
        some [((-3, -3), (30, 20), (40, 10))] ∧
      ((20 + -3 : ℚ), (10 + -3 : ℚ)) ≠ ((30 : ℚ), (10 : ℚ)) := by
  refine ⟨by decide, by decide, by decide, by decide⟩

/-- Entry `i` of a successful run's vertex stream. -/
def Res.vtx? : Res → ℕ → Option Vtx
  | .ok σ, i => σ.vertices[i]?
  | _, _ => none

/-- C4 (amended): the straight-line handlers append the tangent pair
`(π − angle, angle)` for `l`/`L`/`h`/`H` (where `angle` is the computed
direction: `atan2` of the displacement for `l`/`L`, and `0` or `π` by a sign
test for `h`/`H`), so those two entries sum to `π`; but `v`/`V` append
`(−angle, angle)` with `angle = ±π/2`, which sums to `0`, not `π`. -/
theorem C4_theorem :
    (∀ (σ : St) (t1 t2 r : Str) (v1 v2 : ℚ), ' ' ∉ t1 → ' ' ∉ t2 →
        parseNum t1 = some v1 → parseNum t2 = some v2 →
        (lB σ (t1 ++ ' ' :: (t2 ++ ' ' :: r))).verts? =
          some (σ.vertices ++
            [Vtx.ang (Real.pi - point_angle 0 0 v1 v2, point_angle 0 0 v1 v2)])) ∧
    (∀ (σ : St) (t1 t2 r : Str) (v1 v2 : ℚ), ' ' ∉ t1 → ' ' ∉ t2 →
        parseNum t1 = some v1 → parseNum t2 = some v2 →
        (LB σ (t1 ++ ' ' :: (t2 ++ ' ' :: r))).verts? =
          some (σ.vertices ++
            [Vtx.ang (Real.pi - point_angle σ.current_point.1 σ.current_point.2 v1 v2,
              point_angle σ.current_point.1 σ.current_point.2 v1 v2)])) ∧
    (∀ (σ : St) (t r : Str) (v : ℚ), ' ' ∉ t → parseNum t = some v →
        (hB σ (t ++ ' ' :: r)).verts? =
          some (σ.vertices ++
            [Vtx.ang (Real.pi - (if 0 < v then (0 : ℝ) else Real.pi),
              if 0 < v then (0 : ℝ) else Real.pi)])) ∧
    (∀ (σ : St) (t r : Str) (v : ℚ), ' ' ∉ t → parseNum t = some v →
        (HB σ (t ++ ' ' :: r)).verts? =
          some (σ.vertices ++
            [Vtx.ang (Real.pi - (if σ.current_point.1 < v then (0 : ℝ) else Real.pi),
              if σ.current_point.1 < v then (0 : ℝ) else Real.pi)])) ∧
    (∀ (σ : St) (t r : Str) (v : ℚ), ' ' ∉ t → parseNum t = some v →
        (vB σ (t ++ ' ' :: r)).verts? =
          some (σ.vertices ++ [Vtx.ang (-(copysignPiHalf v), copysignPiHalf v)])) ∧
    (∀ (σ : St) (t r : Str) (v : ℚ), ' ' ∉ t → parseNum t = some v →
        (VB σ (t ++ ' ' :: r)).verts? =
          some (σ.vertices ++
            [Vtx.ang (-(copysignPiHalf (v - σ.current_point.2)),
              copysignPiHalf (v - σ.current_point.2))])) ∧
    (∀ θ : ℝ, (Real.pi - θ) + θ = Real.pi) ∧
    (∀ q : ℚ, -(copysignPiHalf q) + copysignPiHalf q = 0) := by
  refine ⟨?_, ?_, ?_, ?_, ?_, ?_, fun θ => by ring, fun q => by ring⟩
  · intro σ t1 t2 r v1 v2 h1 h2 hp1 hp2
    simp [lB, point_cons t1 t2 r v1 v2 h1 h2 hp1 hp2, DRes.verts?]
  · intro σ t1 t2 r v1 v2 h1 h2 hp1 hp2
    simp [LB, point_cons t1 t2 r v1 v2 h1 h2 hp1 hp2, DRes.verts?]
  · intro σ t r v h hp
    simp [hB, splitAdd_token t r h, hp, DRes.verts?]
  · intro σ t r v h hp
    simp [HB, splitAdd_token t r h, hp, DRes.verts?]
  · intro σ t r v h hp
    simp [vB, splitAdd_token t r h, hp, DRes.verts?]
  · intro σ t r v h hp
    simp [VB, splitAdd_token t r h, hp, DRes.verts?]

/-- Witness for C4: concrete instances of all six handlers and the two sum
identities. -/
theorem C4_witness :
    (lB initSt ("3 4 Z".toList)).verts? =
        some [Vtx.ang (Real.pi - point_angle 0 0 (3 : ℚ) (4 : ℚ),
          point_angle 0 0 (3 : ℚ) (4 : ℚ))] ∧
      (LB initSt ("3 4 Z".toList)).verts? =
        some [Vtx.ang (Real.pi - point_angle (0 : ℚ) (0 : ℚ) (3 : ℚ) (4 : ℚ),
          point_angle (0 : ℚ) (0 : ℚ) (3 : ℚ) (4 : ℚ))] ∧
      (hB initSt ("3 Z".toList)).verts? =
        some [Vtx.ang (Real.pi - (if 0 < (3 : ℚ) then (0 : ℝ) else Real.pi),
          if 0 < (3 : ℚ) then (0 : ℝ) else Real.pi)] ∧
      (HB initSt ("3 Z".toList)).verts? =
        some [Vtx.ang (Real.pi - (if (0 : ℚ) < 3 then (0 : ℝ) else Real.pi),
          if (0 : ℚ) < 3 then (0 : ℝ) else Real.pi)] ∧
      (vB initSt ("3 Z".toList)).verts? =
        some [Vtx.ang (-(copysignPiHalf 3), copysignPiHalf 3)] ∧
      (VB initSt ("3 Z".toList)).verts? =
        some [Vtx.ang (-(copysignPiHalf (3 - 0)), copysignPiHalf (3 - 0))] ∧
      (Real.pi - 0) + 0 = Real.pi ∧ -(copysignPiHalf 1) + copysignPiHalf 1 = 0 := by
  refine ⟨?_, ?_, ?_, ?_, ?_, ?_, C4_theorem.2.2.2.2.2.2.1 0, C4_theorem.2.2.2.2.2.2.2 1⟩
  · simpa [initSt] using C4_theorem.1 initSt ['3'] ['4'] ['Z'] 3 4 (by decide) (by decide)
      (by decide) (by decide)
  · simpa [initSt] using C4_theorem.2.1 initSt ['3'] ['4'] ['Z'] 3 4 (by decide) (by decide)
      (by decide) (by decide)
  · simpa [initSt] using C4_theorem.2.2.1 initSt ['3'] ['Z'] 3 (by decide) (by decide)
  · simpa [initSt] using C4_theorem.2.2.2.1 initSt ['3'] ['Z'] 3 (by decide) (by decide)
  · simpa [initSt] using C4_theorem.2.2.2.2.1 initSt ['3'] ['Z'] 3 (by decide) (by decide)
  · simpa [initSt] using C4_theorem.2.2.2.2.2.1 initSt ['3'] ['Z'] 3 (by decide) (by decide)

/-- Counterexample for C4 as stated: on `"M0 0 V10"` the vertical-line entry
is `(−π/2, π/2)`, whose components sum to `0`, not `π` — it does not have the
form `(π − angle, angle)`. -/
theorem C4_counterexample :
    (path "M0 0 V10".toList none 9).vtx? 1 = some (.ang (-(Real.pi / 2), Real.pi / 2)) ∧
      -(Real.pi / 2) + Real.pi / 2 ≠ Real.pi := by
  constructor
  · rfl
  · intro h
    nlinarith [Real.pi_pos]

/-- C8 (amended): in the arc conversion, after the endpoint is mapped to
distance `d` from the origin, the x radius is enlarged to `d/2` exactly when
`d/2 > rx` (it is `max rx (d/2)`, never shrunk); and the perpendicular centre
offset `sqrt(rx'^2 − (d/2)^2)` takes the positive sign exactly when
`large XOR sweep` is true — the opposite of the claimed sign. -/
theorem C8_theorem (rx ry rotq : ℚ) (large sweep : Bool) (x3 y3 : ℚ) :
    (arcCompute rx ry rotq large sweep x3 y3).rxAdj =
        max (rx : ℝ) ((arcCompute rx ry rotq large sweep x3 y3).d / 2) ∧
      (arcCompute rx ry rotq large sweep x3 y3).ycPre =
        (if xor large sweep then
            Real.sqrt ((arcCompute rx ry rotq large sweep x3 y3).rxAdj ^ 2 -
              ((arcCompute rx ry rotq large sweep x3 y3).d / 2) ^ 2)
          else
            -Real.sqrt ((arcCompute rx ry rotq large sweep x3 y3).rxAdj ^ 2 -
              ((arcCompute rx ry rotq large sweep x3 y3).d / 2) ^ 2)) := by
  constructor
  · rfl
  · cases large <;> cases sweep <;> rfl

/-- Counterexample for C8 as stated: with `rx = ry = 5`, no rotation, both
flags `0` (so `large XOR sweep` is false) and endpoint `(6, 0)`, the claimed
sign is positive, `+4`, but the computed offset is `−4`. -/
theorem C8_counterexample :
    (arcCompute 5 5 0 false false 6 0).ycPre = -4 ∧
      Real.sqrt ((arcCompute 5 5 0 false false 6 0).rxAdj ^ 2 -
        ((arcCompute 5 5 0 false false 6 0).d / 2) ^ 2) = 4 ∧
      ((-4 : ℝ) ≠ 4) := by
  have harg : ((((0 : ℚ) : ℝ)) * Real.pi / 180) = 0 := by norm_num
  have hcs : Real.cos (-((((0 : ℚ) : ℝ)) * Real.pi / 180)) = 1 := by
    rw [harg, neg_zero, Real.cos_zero]
  have hsn : Real.sin (-((((0 : ℚ) : ℝ)) * Real.pi / 180)) = 0 := by
    rw [harg, neg_zero, Real.sin_zero]
  have h36 : Real.sqrt 36 = 6 := by
    rw [show (36 : ℝ) = 6 ^ 2 by norm_num, Real.sqrt_sq (by norm_num : (0:ℝ) ≤ 6)]
  have h16 : Real.sqrt 16 = 4 := by
    rw [show (16 : ℝ) = 4 ^ 2 by norm_num, Real.sqrt_sq (by norm_num : (0:ℝ) ≤ 4)]
  have hd : (arcCompute 5 5 0 false false 6 0).d = 6 := by
    simp only [arcCompute, radiansR, rotateP, hypotR, hcs, hsn]
    norm_num [h36]
  have hrx : (arcCompute 5 5 0 false false 6 0).rxAdj = 5 := by
    simp only [arcCompute, radiansR, rotateP, hypotR, hcs, hsn]
    norm_num [h36]
  refine ⟨?_, ?_, by norm_num⟩
  · simp only [arcCompute, radiansR, rotateP, hypotR, hcs, hsn]
    norm_num [h36, h16]
  · rw [hd, hrx]
    rw [show ((5:ℝ) ^ 2 - (6 / 2) ^ 2) = 16 by norm_num, h16]

/-- Vertex stream of a successful run, for feeding `draw_markers`. -/
def Res.vlist? : Res → Option (List Vtx)
  | .ok σ => some σ.vertices
  | _ => none

/-- Position and computed orientation angle logged at index `i` of the marker
walk's ghost log. -/
def logAngle? (r : Except Err (MNode × List Ev × List (Str × Vtx × Option ℝ)))
    (i : ℕ) : Option (Str × Option ℝ) :=
  match r with
  | .error _ => none
  | .ok (_, _, log) => (log.get? i).map (fun e => (e.1, e.2.2))

/-- A surface with no marker definitions. -/
def c5surf : MSurface := { markers := [], strokeWidth := none }

/-- The node produced by interpreting "M0 0 L10 0 L10 10", with no marker
attributes of its own. -/
noncomputable def c5node : MNode :=
  { vertices := (path "M0 0 L10 0 L10 10".toList none 9).vlist?, attrs := [] }

/-- The node produced by interpreting "M0 0 L10 0". -/
noncomputable def c5nodeS : MNode :=
  { vertices := (path "M0 0 L10 0".toList none 9).vlist?, attrs := [] }

/-- The direction angle of the segment (0,0) → (10,0). -/
noncomputable def c5pa : ℝ :=
  point_angle ((0 : ℚ) : ℝ) ((0 : ℚ) : ℝ) ((10 : ℚ) : ℝ) ((0 : ℚ) : ℝ)

/-- The direction angle of the segment (10,0) → (10,10). -/
noncomputable def c5pb : ℝ :=
  point_angle ((10 : ℚ) : ℝ) ((0 : ℚ) : ℝ) ((10 : ℚ) : ℝ) ((10 : ℚ) : ℝ)

theorem c5pa_eq : c5pa = 0 := by
  norm_num [c5pa, point_angle, atan2R, Real.arctan_zero]

theorem c5pb_eq : c5pb = Real.pi / 2 := by
  norm_num [c5pb, point_angle, atan2R]

/-- C5 (amended): in the marker walk the computed orientation angle (before
the fixed π convention offset and any orient override) is `π − angles[0]` at a
"start" vertex — `angles[0]` being the recorded INCOMING component of the
tangent pair, so for a line's pair `(π − θ, θ)` the result is the outgoing
angle `θ` itself, not `π − θ`; at a "mid" vertex it is
`(angle2 + π − angles[0]) / 2` with `angle2` the previously stored outgoing
component; at an "end" vertex the previously stored `angle1` is reused.
In particular on "M0 0 L10 0 L10 10" the mid vertex (10,0) is logged with
angle `π/4`. -/
theorem C5_theorem (surface : MSurface) (pv : Vtx) (t1 t2 a2 : ℝ)
    (a1 : Option ℝ) (pos : Str) :
    (mstep surface [] [] [] pv (some (Vtx.ang (t1, t2))) a1 (some a2)
        "start".toList =
      .ok ([], ("start".toList, pv, some (Real.pi - t1)), some t1, some t2,
        "mid".toList)) ∧
    (mstep surface [] [] [] pv (some (Vtx.ang (t1, t2))) a1 (some a2)
        "mid".toList =
      .ok ([], ("mid".toList, pv, some ((a2 + Real.pi - t1) / 2)), some t1,
        some t2, "mid".toList)) ∧
    (mstep surface [] [] [] pv none a1 (some a2) pos =
      .ok ([], ("end".toList, pv, a1), a1, some a2, "start".toList)) ∧
    (∀ θ : ℝ, Real.pi - (Vtx.ang (Real.pi - θ, θ)).fstR = θ) ∧
    logAngle? (draw_markers c5surf c5node) 1 =
      some ("mid".toList, some (Real.pi / 4)) := by
  refine ⟨rfl, rfl, rfl, ?_, ?_⟩
  · intro θ
    simp [Vtx.fstR]
  · have hlog : logAngle? (draw_markers c5surf c5node) 1 =
        some ("mid".toList, some ((c5pa + Real.pi - (Real.pi - c5pb)) / 2)) := rfl
    rw [hlog, c5pa_eq, c5pb_eq]
    norm_num
    ring

/-- Counterexample for C5 as stated: on "M0 0 L10 0" the recorded tangent pair
is `(π − θ, θ)` with `θ = 0` the outgoing direction angle, and the walk logs
the start vertex with angle `π − (π − θ) = 0`, whereas the claimed formula
`π − outgoing_angle` gives `π ≠ 0`. -/
theorem C5_counterexample :
    (path "M0 0 L10 0".toList none 9).vtx? 1 =
      some (Vtx.ang (Real.pi - c5pa, c5pa)) ∧
    logAngle? (draw_markers c5surf c5nodeS) 0 =
      some ("start".toList, some (Real.pi - (Real.pi - c5pa))) ∧
    Real.pi - (Real.pi - c5pa) = 0 ∧
    Real.pi - c5pa ≠ 0 := by
  refine ⟨rfl, rfl, ?_, ?_⟩
  · rw [c5pa_eq]
    ring
  · rw [c5pa_eq]
    simpa using Real.pi_ne_zero

/-- Current point of a dispatch result, when it is not an exception. -/
def DRes.cur? : DRes → Option (ℚ × ℚ)
  | .next σ _ _ => some σ.current_point
  | .exn _ => none

/-- The raised exception of a run, if any. -/
def Res.exn? : Res → Option Err
  | .exn e => some e
  | _ => none

/-- C1 (amended): an arc command whose two flag characters are digits with at
least one value outside {0, 1} is skipped without an exception: no draw call
is issued (the trace gains only the `set_tolerance` call), and the vertex
stream and current point are unchanged — though the branch does overwrite the
stored control data `x1, y1, x3, y3` before skipping.  The "never raises"
half of the claim is refuted separately: a non-digit flag character raises
`ValueError` in `int(...)`. -/
theorem C1_theorem (σ0 : St) (l s0 s1 trot s3 s4 s5 : Str) (lc sc : Char)
    (rx ry rotq px py : ℚ) (lv sv : ℕ)
    (h1 : point s0 = .ok (rx, ry, s1))
    (h2 : splitSp s1 = (trot, some (lc :: s3)))
    (h3 : parseNum trot = some rotq)
    (h5 : stripSp s3 = sc :: s4)
    (h6 : point (stripSp s4) = .ok (px, py, s5))
    (h7 : digit? lc = some lv)
    (h8 : digit? sc = some sv)
    (h9 : ¬(lv = 0 ∨ lv = 1) ∨ ¬(sv = 0 ∨ sv = 1)) :
    arcB l σ0 s0 =
      .next { σ0 with
        trace := σ0.trace ++ [Ev.setTolerance (1 / 100000)],
        x1 := σ0.current_point.1, y1 := σ0.current_point.2,
        x3 := px, y3 := py } s5 true ∧
    (arcB l σ0 s0).verts? = some σ0.vertices ∧
    (arcB l σ0 s0).cur? = some σ0.current_point ∧
    ((arcB l σ0 s0).trace?).map drawCallsOf = some (drawCallsOf σ0.trace) := by
  have hmain : arcB l σ0 s0 =
      .next { σ0 with
        trace := σ0.trace ++ [Ev.setTolerance (1 / 100000)],
        x1 := σ0.current_point.1, y1 := σ0.current_point.2,
        x3 := px, y3 := py } s5 true := by
    simp only [arcB, h1, h2, h3, h5, h6, h7, h8]
    rw [if_pos h9]
  refine ⟨hmain, ?_, ?_, ?_⟩ <;> rw [hmain] <;>
    simp [DRes.verts?, DRes.cur?, DRes.trace?, drawCallsOf, List.filter_append,
      Ev.isDraw]

/-- Witness for C1: the arc arguments `5 5 0 9 9 7 7` (flags `9 9`) after an
`A` are skipped: only `set_tolerance` is traced, the vertex stream stays
empty, the current point stays `(0, 0)`, and no draw call is made. -/
theorem C1_witness :
    arcB ['A'] initSt "5 5 0 9 9 7 7 Z".toList =
      .next { initSt with
        trace := [Ev.setTolerance (1 / 100000)],
        x1 := 0, y1 := 0, x3 := 7, y3 := 7 } "Z ".toList true ∧
    (arcB ['A'] initSt "5 5 0 9 9 7 7 Z".toList).verts? = some [] ∧
    (arcB ['A'] initSt "5 5 0 9 9 7 7 Z".toList).cur? = some (0, 0) ∧
    ((arcB ['A'] initSt "5 5 0 9 9 7 7 Z".toList).trace?).map drawCallsOf =
      some [] := by
  have h := C1_theorem initSt ['A'] "5 5 0 9 9 7 7 Z".toList
    "0 9 9 7 7 Z ".toList "0".toList " 9 7 7 Z ".toList " 7 7 Z".toList
    "Z ".toList '9' '9' 5 5 0 7 7 9 9
    rfl (by decide) (by decide) (by decide) rfl (by decide)
    (by decide) (by decide)
  simpa [initSt, drawCallsOf] using h

/-- Counterexample for C1 as stated: the tokenizable path-data string
`"M 0 0 A 5 5 0 x 1 10 10"` raises `ValueError` — the arc's large-arc flag
character `x` is not a digit, so Python's `int` conversion fails — refuting
the claim that no syntactically-tokenizable input ever raises. -/
theorem C1_counterexample :
    (path "M 0 0 A 5 5 0 x 1 10 10".toList none 9).exn? = some Err.valueError := by
  decide

theorem fmtQ_chars (q : ℚ) : ∀ c ∈ fmtQ q, isDig c = true ∨ c = '-' ∨ c = '.' := by
  intro c hc
  rw [fmtQ] at hc
  rcases hdec : decExp q with _ | k <;> simp only [hdec] at hc
  · simp only [List.mem_singleton] at hc
    exact Or.inl (by rw [hc]; decide)
  ·
    by_cases hk : k = 0
    · rw [if_pos hk] at hc
      rcases List.mem_append.mp hc with h | h
      · by_cases hneg : (q * 10 ^ k).num < 0
        · rw [if_pos hneg] at h
          simp only [List.mem_singleton] at h
          exact Or.inr (Or.inl h)
        · rw [if_neg hneg] at h
          simp at h
      · exact Or.inl (List.all_eq_true.mp (natDigits_all_isDig _) _ h)
    · rw [if_neg hk] at hc
      rcases List.mem_append.mp hc with h | h
      · rcases List.mem_append.mp h with h2 | h2
        · by_cases hneg : (q * 10 ^ k).num < 0
          · rw [if_pos hneg] at h2
            simp only [List.mem_singleton] at h2
            exact Or.inr (Or.inl h2)
          · rw [if_neg hneg] at h2
            simp at h2
        · exact Or.inl (List.all_eq_true.mp (natDigits_all_isDig _) _ h2)
      · rcases List.mem_cons.mp h with h2 | h2
        · exact Or.inr (Or.inr h2)
        · exact Or.inl (List.all_eq_true.mp
            (padLeft_all_isDig _ _ (natDigits_all_isDig _)) _ h2)

theorem fmtQ_no_space (q : ℚ) : ' ' ∉ fmtQ q := by
  intro h
  rcases fmtQ_chars q ' ' h with hd | hd | hd <;> exact absurd hd (by decide)

theorem fmtQ_ne_nil (q : ℚ) : fmtQ q ≠ [] := by
  rw [fmtQ]
  rcases hdec : decExp q with _ | k <;> simp only [hdec]
  · simp
  ·
    by_cases hk : k = 0
    · rw [if_pos hk]
      intro h
      exact natDigits_ne_nil _ (List.append_eq_nil.mp h).2
    · rw [if_neg hk]
      intro h
      have h2 := (List.append_eq_nil.mp h).2
      simp at h2

theorem stripSp_of_ne (s : Str) (h1 : s.head? ≠ some ' ') (h2 : s.getLast? ≠ some ' ') :
    stripSp s = s := by
  rcases s with _ | ⟨a, t⟩
  · rfl
  · have ha : ¬(a = ' ') := fun e => h1 (by simp [e])
    have hd1 : (a :: t).dropWhile (fun c => c = ' ') = a :: t := by
      rw [List.dropWhile_cons]
      simp [ha]
    rw [stripSp, hd1]
    rcases hrev : (a :: t).reverse with _ | ⟨b, rt⟩
    · exact absurd hrev (by simp)
    · have hgl : (a :: t).getLast? = some b := by
        rw [← List.head?_reverse, hrev]
        rfl
      have hb : ¬(b = ' ') := fun e => h2 (by rw [hgl, e])
      have hd2 : (b :: rt).dropWhile (fun c => c = ' ') = b :: rt := by
        rw [List.dropWhile_cons]
        simp [hb]
      rw [hd2, ← hrev, List.reverse_reverse]

theorem getLast?_no_space (A B : Str) (hB : B ≠ []) (hnB : ' ' ∉ B) :
    (A ++ B).getLast? ≠ some ' ' := by
  rw [List.getLast?_append_of_ne_nil _ hB, List.getLast?_eq_getLast_of_ne_nil hB]
  intro h
  rw [Option.some.injEq] at h
  exact hnB (h ▸ List.getLast_mem hB)

/-- The observable part of an interpreter state that the degenerate-arc
rewrite is meant to preserve: the current point, the vertex stream, the draw
calls, the subpath start point and the recorded last letter. -/
def stObs (σ : St) : (ℚ × ℚ) × List Vtx × List Ev × Option (ℚ × ℚ) × Option Str :=
  (σ.current_point, σ.vertices, drawCallsOf σ.trace, σ.first_path_point, σ.last_letter)

/-- C6: a degenerate arc (`rx = 0` or `ry = 0`) anywhere in the path data is
rewritten to the relative lineto `l {x3} {y3}`, re-injecting the arc letter
into the remaining token stream when the next token is not a command letter;
processing the rewritten string as a lineto from the post-skip state and
processing it directly from the original state leave the same remaining token
stream and states with equal observables (current point, vertex stream, draw
calls, subpath start point, last letter) — provided a previous command was
executed and was not a closepath. -/
theorem C6_theorem (σ0 : St) (l s0 body s1 s3 s4 s5 trot next_letter w rest : Str)
    (lc sc : Char) (rx ry rotq px py r1 r2 : ℚ) (lv sv k1 k2 : ℕ)
    (hl : l = ['a'] ∨ l = ['A'])
    (hs : stripSp s0 = l ++ ' ' :: body)
    (h3f : lastIn3 σ0.last_letter = false)
    (h1 : point (body ++ [' ']) = .ok (rx, ry, s1))
    (h2 : splitSp s1 = (trot, some (lc :: s3)))
    (h3 : parseNum trot = some rotq)
    (h5 : stripSp s3 = sc :: s4)
    (h6 : point (stripSp s4) = .ok (px, py, s5))
    (h7 : digit? lc = some lv)
    (h8 : digit? sc = some sv)
    (h9 : (lv = 0 ∨ lv = 1) ∧ (sv = 0 ∨ sv = 1))
    (hdeg : rx = 0 ∨ ry = 0)
    (hrel : (r1, r2) =
      if l = ['A'] then (px - σ0.current_point.1, py - σ0.current_point.2) else (px, py))
    (hk1 : decExp r1 = some k1) (hk2 : decExp r2 = some k2)
    (hnl : next_letter =
      match s5 with
      | c :: _ => if ¬(c ∈ PATH_LETTERS) then l ++ [' '] else []
      | [] => [])
    (hstrip : stripSp ('l' :: ' ' :: (fmtQ r1 ++ ' ' :: (fmtQ r2 ++ ' ' :: (next_letter ++ s5)))) = 'l' :: ' ' :: w)
    (hw : point (w ++ [' ']) = .ok (r1, r2, rest)) :
    step σ0 s0 =
      .next { σ0 with
        letter := some l,
        first_path_point :=
          (if lastIn5 σ0.last_letter = true then some σ0.current_point
          else if σ0.first_path_point.isNone = true then some σ0.current_point
          else σ0.first_path_point),
        trace := σ0.trace ++ [Ev.setTolerance (1 / 100000)],
        x1 := σ0.current_point.1, y1 := σ0.current_point.2,
        x3 := r1, y3 := r2 }
        ('l' :: ' ' :: (fmtQ r1 ++ ' ' :: (fmtQ r2 ++ ' ' :: (next_letter ++ s5)))) ∧
    step { σ0 with
        letter := some l,
        first_path_point :=
          (if lastIn5 σ0.last_letter = true then some σ0.current_point
          else if σ0.first_path_point.isNone = true then some σ0.current_point
          else σ0.first_path_point),
        trace := σ0.trace ++ [Ev.setTolerance (1 / 100000)],
        x1 := σ0.current_point.1, y1 := σ0.current_point.2,
        x3 := r1, y3 := r2 }
        ('l' :: ' ' :: (fmtQ r1 ++ ' ' :: (fmtQ r2 ++ ' ' :: (next_letter ++ s5)))) =
      .next { σ0 with
        letter := some ['l'],
        last_letter := some ['l'],
        first_path_point :=
          (if lastIn5 σ0.last_letter = true then some σ0.current_point
          else if σ0.first_path_point.isNone = true then some σ0.current_point
          else σ0.first_path_point),
        trace := σ0.trace ++ [Ev.setTolerance (1 / 100000), Ev.relLineTo (r1, r2)],
        vertices := σ0.vertices ++
          [Vtx.ang (Real.pi - point_angle 0 0 (r1 : ℝ) (r2 : ℝ), point_angle 0 0 (r1 : ℝ) (r2 : ℝ)),
           Vtx.pt (σ0.current_point.1 + r1, σ0.current_point.2 + r2)],
        current_point := (σ0.current_point.1 + r1, σ0.current_point.2 + r2),
        x1 := σ0.current_point.1, y1 := σ0.current_point.2,
        x3 := r1, y3 := r2 } (stripSp rest) ∧
    step σ0 ('l' :: ' ' :: (fmtQ r1 ++ ' ' :: (fmtQ r2 ++ ' ' :: (next_letter ++ s5)))) =
      .next { σ0 with
        letter := some ['l'],
        last_letter := some ['l'],
        first_path_point :=
          (if lastIn5 σ0.last_letter = true then some σ0.current_point
          else if σ0.first_path_point.isNone = true then some σ0.current_point
          else σ0.first_path_point),
        trace := σ0.trace ++ [Ev.relLineTo (r1, r2)],
        vertices := σ0.vertices ++
          [Vtx.ang (Real.pi - point_angle 0 0 (r1 : ℝ) (r2 : ℝ), point_angle 0 0 (r1 : ℝ) (r2 : ℝ)),
           Vtx.pt (σ0.current_point.1 + r1, σ0.current_point.2 + r2)],
        current_point := (σ0.current_point.1 + r1, σ0.current_point.2 + r2) } (stripSp rest) ∧
    stObs { σ0 with
        letter := some ['l'],
        last_letter := some ['l'],
        first_path_point :=
          (if lastIn5 σ0.last_letter = true then some σ0.current_point
          else if σ0.first_path_point.isNone = true then some σ0.current_point
          else σ0.first_path_point),
        trace := σ0.trace ++ [Ev.setTolerance (1 / 100000), Ev.relLineTo (r1, r2)],
        vertices := σ0.vertices ++
          [Vtx.ang (Real.pi - point_angle 0 0 (r1 : ℝ) (r2 : ℝ), point_angle 0 0 (r1 : ℝ) (r2 : ℝ)),
           Vtx.pt (σ0.current_point.1 + r1, σ0.current_point.2 + r2)],
        current_point := (σ0.current_point.1 + r1, σ0.current_point.2 + r2),
        x1 := σ0.current_point.1, y1 := σ0.current_point.2,
        x3 := r1, y3 := r2 } =
      stObs { σ0 with
        letter := some ['l'],
        last_letter := some ['l'],
        first_path_point :=
          (if lastIn5 σ0.last_letter = true then some σ0.current_point
          else if σ0.first_path_point.isNone = true then some σ0.current_point
          else σ0.first_path_point),
        trace := σ0.trace ++ [Ev.relLineTo (r1, r2)],
        vertices := σ0.vertices ++
          [Vtx.ang (Real.pi - point_angle 0 0 (r1 : ℝ) (r2 : ℝ), point_angle 0 0 (r1 : ℝ) (r2 : ℝ)),
           Vtx.pt (σ0.current_point.1 + r1, σ0.current_point.2 + r2)],
        current_point := (σ0.current_point.1 + r1, σ0.current_point.2 + r2) } := by
  have hlP : infixB l PATH_LETTERS = true := by rcases hl with rfl | rfl <;> decide
  have hlaA : infixB l ['a', 'A'] = true := by rcases hl with rfl | rfl <;> decide
  have hlmM : infixB l ['m', 'M'] = false := by rcases hl with rfl | rfl <;> decide
  have hlN5 : letterNotIn5 (some l) = true := by rcases hl with rfl | rfl <;> decide
  have hsp_l : ' ' ∉ l := by rcases hl with rfl | rfl <;> decide
  have hlM : (l = ['M']) = False := by rcases hl with rfl | rfl <;> simp
  have hlm : (l = ['m']) = False := by rcases hl with rfl | rfl <;> simp
  rcases s0 with _ | ⟨c0, s0t⟩
  · exfalso
    rcases hl with rfl | rfl <;> simp [stripSp] at hs
  have htokA : splitSp (l ++ ' ' :: body) = (l, some body) := splitSp_token _ _ hsp_l
  have haddA : splitAdd (l ++ ' ' :: body) = (l, body ++ [' ']) := splitAdd_token _ _ hsp_l
  have hrel' :
      (if l = ['A'] then (px - σ0.current_point.1, py - σ0.current_point.2) else (px, py)) =
        (r1, r2) := hrel.symm
  have hflag : ¬((¬lv = 0 ∧ ¬lv = 1) ∨ (¬sv = 0 ∧ ¬sv = 1)) := by tauto
  have htokW : splitSp ('l' :: ' ' :: w) = (['l'], some w) := by
    simp [splitSp_cons]
  have haddW : splitAdd ('l' :: ' ' :: w) = (['l'], w ++ [' ']) := by
    simp [splitAdd, splitSp_cons]
  refine ⟨?_, ?_, ?_, ?_⟩
  · rcases s5 with _ | ⟨c5, s5t⟩
    · have hnl2 : next_letter = [] := hnl
      subst hnl2
      by_cases h5' : lastIn5 σ0.last_letter = true <;>
        rcases hfp : σ0.first_path_point with _ | p0 <;>
        simp [step, hs, prologue, htokA, haddA, dispatch, arcB, h1, h2, h3, h5, h6,
          h7, h8, hflag, hdeg, hrel', h3f, h5', hfp, hlP, hlaA, hlmM, hlN5, hlM, hlm]
    · have hnl2 : next_letter = if ¬(c5 ∈ PATH_LETTERS) then l ++ [' '] else [] := hnl
      subst hnl2
      by_cases h5' : lastIn5 σ0.last_letter = true <;>
        rcases hfp : σ0.first_path_point with _ | p0 <;>
        simp [step, hs, prologue, htokA, haddA, dispatch, arcB, h1, h2, h3, h5, h6,
          h7, h8, hflag, hdeg, hrel', h3f, h5', hfp, hlP, hlaA, hlmM, hlN5, hlM, hlm]
  · by_cases h5' : lastIn5 σ0.last_letter = true <;>
      rcases hfp : σ0.first_path_point with _ | p0 <;>
      simp [step, hstrip, prologue, htokW, haddW, dispatch, lB, hw, postStep,
        h3f, h5', hfp,
        show letterNotIn5 (some ['l']) = true from by decide,
        show infixB ['l'] PATH_LETTERS = true from by decide,
        show infixB ['l'] ['m', 'M'] = false from by decide,
        show infixB ['l'] ['a', 'A'] = false from by decide,
        show infixB ['l'] ['z', 'Z'] = false from by decide]
  · by_cases h5' : lastIn5 σ0.last_letter = true <;>
      rcases hfp : σ0.first_path_point with _ | p0 <;>
      simp [step, hstrip, prologue, htokW, haddW, dispatch, lB, hw, postStep,
        h3f, h5', hfp,
        show letterNotIn5 (some ['l']) = true from by decide,
        show infixB ['l'] PATH_LETTERS = true from by decide,
        show infixB ['l'] ['m', 'M'] = false from by decide,
        show infixB ['l'] ['a', 'A'] = false from by decide,
        show infixB ['l'] ['z', 'Z'] = false from by decide]
  · simp [stObs, drawCallsOf, List.filter_append, Ev.isDraw]

/-- A state with a previous `L` executed and current point `(1/2, 0)`. -/
def c6σ : St := { initSt with last_letter := some ['L'], current_point := (1 / 2, 0) }

/-- Witness for C6: from current point `(1/2, 0)` after an `L`, the mid-string
degenerate arc `A 0 5 0 0 1 7 9 3 4` rewrites to `l 6.5 9 A 3 4 ` — the arc
letter is re-injected before the leftover coordinates `3 4` — and the lineto
step from the post-skip state and from the original state leave the same
remainder and states with equal observables. -/
theorem C6_witness :
    step c6σ "A 0 5 0 0 1 7 9 3 4".toList =
      .next { c6σ with
        letter := some ['A'],
        first_path_point :=
          (if lastIn5 c6σ.last_letter = true then some c6σ.current_point
          else if c6σ.first_path_point.isNone = true then some c6σ.current_point
          else c6σ.first_path_point),
        trace := c6σ.trace ++ [Ev.setTolerance (1 / 100000)],
        x1 := c6σ.current_point.1, y1 := c6σ.current_point.2,
        x3 := 13 / 2, y3 := 9 }
      ('l' :: ' ' :: (fmtQ (13 / 2) ++ ' ' :: (fmtQ 9 ++ ' ' :: (['A', ' '] ++ "3 4 ".toList)))) ∧
    stObs { c6σ with
        letter := some ['l'],
        last_letter := some ['l'],
        first_path_point :=
          (if lastIn5 c6σ.last_letter = true then some c6σ.current_point
          else if c6σ.first_path_point.isNone = true then some c6σ.current_point
          else c6σ.first_path_point),
        trace := c6σ.trace ++ [Ev.setTolerance (1 / 100000), Ev.relLineTo (13 / 2, 9)],
        vertices := c6σ.vertices ++
          [Vtx.ang (Real.pi - point_angle 0 0 ((13 / 2 : ℚ) : ℝ) ((9 : ℚ) : ℝ), point_angle 0 0 ((13 / 2 : ℚ) : ℝ) ((9 : ℚ) : ℝ)),
           Vtx.pt (c6σ.current_point.1 + 13 / 2, c6σ.current_point.2 + 9)],
        current_point := (c6σ.current_point.1 + 13 / 2, c6σ.current_point.2 + 9),
        x1 := c6σ.current_point.1, y1 := c6σ.current_point.2,
        x3 := 13 / 2, y3 := 9 } =
      stObs { c6σ with
        letter := some ['l'],
        last_letter := some ['l'],
        first_path_point :=
          (if lastIn5 c6σ.last_letter = true then some c6σ.current_point
          else if c6σ.first_path_point.isNone = true then some c6σ.current_point
          else c6σ.first_path_point),
        trace := c6σ.trace ++ [Ev.relLineTo (13 / 2, 9)],
        vertices := c6σ.vertices ++
          [Vtx.ang (Real.pi - point_angle 0 0 ((13 / 2 : ℚ) : ℝ) ((9 : ℚ) : ℝ), point_angle 0 0 ((13 / 2 : ℚ) : ℝ) ((9 : ℚ) : ℝ)),
           Vtx.pt (c6σ.current_point.1 + 13 / 2, c6σ.current_point.2 + 9)],
        current_point := (c6σ.current_point.1 + 13 / 2, c6σ.current_point.2 + 9) } := by
  have h := C6_theorem c6σ ['A'] "A 0 5 0 0 1 7 9 3 4".toList
    "0 5 0 0 1 7 9 3 4".toList "0 0 1 7 9 3 4  ".toList " 1 7 9 3 4  ".toList
    " 7 9 3 4".toList "3 4 ".toList "0".toList "A ".toList "6.5 9 A 3 4".toList
    ("A 3 4 ".toList ++ [' ']) '0' '1' 0 5 0 7 9 (13 / 2) 9 0 1 1 0
    (Or.inr rfl) (by decide) (by decide) rfl (by decide) (by decide) (by decide)
    rfl (by decide) (by decide) (by decide) (Or.inl rfl) (by decide) (by decide)
    (by decide) (by decide) (by decide)
    (by
      rw [show "6.5 9 A 3 4".toList ++ [' '] =
        "6.5".toList ++ ' ' :: ("9".toList ++ ' ' :: "A 3 4 ".toList) from by decide]
      exact point_cons _ _ _ _ _ (by decide) (by decide) (by decide) (by decide))
  exact ⟨h.1, h.2.2.2⟩

/-- Counterexample for the universal form of C6: when the degenerate arc is
the first command (no previous executed letter), the arc run passes the seed
appending prologue twice — once for the arc letter, once for the re-read `l`
— so its vertex stream gains a duplicated seed point that the plain relative
lineto run does not have. -/
theorem C6_counterexample :
    (path "a 0 5 0 0 1 7 9".toList none 9).tags =
      some [VTag.p (0, 0), VTag.p (0, 0), VTag.a, VTag.p (7, 9)] ∧
    (path "l 7 9".toList none 9).tags =
      some [VTag.p (0, 0), VTag.a, VTag.p (7, 9)] ∧
    ([VTag.p (0, 0), VTag.p (0, 0), VTag.a, VTag.p (7, 9)] ≠
      [VTag.p (0, 0), VTag.a, VTag.p (7, 9)]) := by
  refine ⟨by decide, by decide, by decide⟩

end CairoPath
